import Mathlib

/-!
Verification development for the Azure Learning course scraper
(`azure_course_scraper.py`).  The Python source is shallowly embedded:

* HTML fetching/parsing is abstracted behind per-rank page structures
  (`CoursePage`, `PathPage`, `ModulePage`, `UnitPage`) holding exactly the
  facts the scraper reads off the parsed soup (the h1 text, the anchors with
  their hrefs and visible text, the image tags with their document context,
  the flattened content text).  A `Fetchers` record bundles the four
  `URL -> Option page` maps; `none` models a failed `fetch_page`
  (HTTP error or exception).
* `urllib.parse.urljoin` is an opaque parameter `join` threaded through, so
  theorems hold for every join function; concrete instances pick a join that
  agrees with `urljoin` on the inputs that actually occur.
* Python dicts with a fixed key set become structures.  A key that may be
  absent (`'units'`, `'modules'`) becomes an `Option` field, because the code
  distinguishes absence (`KeyError` on `module_info['units']`) from presence.
  The `'content'` key is a `String` whose truthiness (`unit.get('content')`)
  is non-emptiness, matching every use in the source.
* All string manipulation is re-implemented with structural recursion over
  `List Char` so every definition evaluates inside the kernel.
-/

set_option maxHeartbeats 2000000
set_option maxRecDepth 10000

namespace Scraper

/-! ### String helpers (Python string semantics over char lists) -/

/-- Membership test for a substring, like Python's `in` on strings. -/
def isSubChars (pat : List Char) : List Char → Bool
  | [] => pat.isEmpty
  | c :: cs => pat.isPrefixOf (c :: cs) || isSubChars pat cs

/-- Python `pat in s`. -/
def containsStr (s pat : String) : Bool := isSubChars pat.toList s.toList

/-- Python `s.startswith(p)`. -/
def startsWithStr (s p : String) : Bool := p.toList.isPrefixOf s.toList

/-- Python `s.endswith(p)`. -/
def endsWithStr (s p : String) : Bool := p.toList.reverse.isPrefixOf s.toList.reverse

/-- Python `s.lower()` (ASCII; the scraper only lowercases ASCII data). -/
def lowerStr (s : String) : String := String.mk (s.toList.map Char.toLower)

/-- Split a char list on a separator char; mirrors Python `str.split(sep)`
for a one-character separator (`"".split` gives `[""]`, separators at the
edges give empty pieces). -/
def splitOnChar (c : Char) : List Char → List (List Char)
  | [] => [[]]
  | x :: xs =>
    match splitOnChar c xs with
    | [] => [[x]]
    | h :: t => if x = c then [] :: h :: t else (x :: h) :: t

/-- Fuel-driven worker for `pyReplace`; fuel is the input length, so the fuel
case `0` with a non-empty list is unreachable.  Replaces left to right,
non-overlapping, exactly like CPython `str.replace` for non-empty patterns. -/
def replaceSubAux (pat rep : List Char) : Nat → List Char → List Char
  | _, [] => []
  | 0, cs => cs
  | fuel + 1, c :: cs =>
    if pat ≠ [] ∧ pat.isPrefixOf (c :: cs) then
      rep ++ replaceSubAux pat rep fuel (List.drop (pat.length - 1) cs)
    else
      c :: replaceSubAux pat rep fuel cs

/-- Python `s.replace(pat, rep)` for non-empty `pat` (every call site in the
scraper uses a non-empty pattern). -/
def pyReplace (s pat rep : String) : String :=
  String.mk (replaceSubAux pat.toList rep.toList s.toList.length s.toList)

/-- Worker for `pyTitle`: the Bool says whether the previous char was
alphabetic (Python titlecases an alpha char that follows a non-cased char). -/
def pyTitleChars : Bool → List Char → List Char
  | _, [] => []
  | prevAlpha, c :: cs =>
    if c.isAlpha then
      (if prevAlpha then c.toLower else c.toUpper) :: pyTitleChars true cs
    else
      c :: pyTitleChars false cs

/-- Python `s.title()` (ASCII). -/
def pyTitle (s : String) : String := String.mk (pyTitleChars false s.toList)

/-- Decimal value of a digit run, as Python `int(digits)`. -/
def digitsToNat (ds : List Char) : Nat := ds.foldl (fun n c => n * 10 + (c.toNat - 48)) 0

/-- Python `os.path.basename` for URLs (text after the last `/`). -/
def basenameStr (s : String) : String :=
  String.mk ((splitOnChar '/' s.toList).getLastD [])

/-- Decimal rendering of a small natural number (enough for `range(1, 20)`,
the only numbers the scraper renders). -/
def natToChars (n : Nat) : List Char :=
  if n < 10 then [Char.ofNat (48 + n)]
  else if n < 100 then [Char.ofNat (48 + n / 10), Char.ofNat (48 + n % 10)]
  else []

/-- Python's `\s` class as used by `re` on ASCII text. -/
def isPySpace (c : Char) : Bool :=
  c = ' ' ∨ c = '\t' ∨ c = '\n' ∨ c = '\r' ∨ c = Char.ofNat 11 ∨ c = Char.ofNat 12

/-! ### Data model

The nested dict tree built by the scraper.  Field names follow the dict keys
of the source. -/

/-- One heading of a unit page (`{'level': .., 'text': ..}`). -/
structure Heading where
  level : Nat
  text : String
deriving DecidableEq

/-- Image surroundings captured by `extract_image_context`. -/
structure ImageContext where
  preceding_heading : String
  following_text : String
  figure_caption : String
  parent_section : String
deriving DecidableEq

/-- One image record built by `parse_unit_content`. -/
structure ImageInfo where
  src : String
  absolute_url : String
  alt_text : String
  title : String
  filename : String
  image_type : String
  context : ImageContext
deriving DecidableEq

/-- One outbound link record (`{'url': .., 'text': ..}`). -/
structure LinkInfo where
  url : String
  text : String
deriving DecidableEq

/-- A unit dict.  `content = ""` models both an absent `'content'` key and an
empty extracted text: the source only ever tests the key's truthiness
(`unit.get('content')`) and copies its value.  `content_skipped` models the
`'content_skipped'` key written when extraction is disabled. -/
structure UnitData where
  number : Nat
  title : String
  url : String
  href : String
  content : String
  headings : List Heading
  code_blocks : List String
  images : List ImageInfo
  links : List LinkInfo
  content_skipped : Bool
deriving DecidableEq

/-- A module dict.  `units = none` models an absent `'units'` key (a bare
`{'title','url'}` entry from `parse_learning_path`); the distinction matters
because `scrape_course` reads `module_info['units']` without a default.
`description`, `learning_objectives` and `prerequisites` are initialised by
`parse_module_page` and never filled. -/
structure ModuleData where
  title : String
  url : String
  description : String
  learning_objectives : List String
  prerequisites : List String
  units : Option (List UnitData)
deriving DecidableEq

/-- A learning-path dict.  `modules = none` models an absent `'modules'` key
(a fresh entry from `parse_course_page`). -/
structure PathEntry where
  title : String
  url : String
  learn_uid : String
  modules : Option (List ModuleData)
deriving DecidableEq

/-- The course dict built by `parse_course_page` and threaded through the
whole crawl. -/
structure CourseData where
  url : String
  title : String
  description : String
  learning_paths : List PathEntry
deriving DecidableEq

/-- The content fields returned by `get_existing_unit_content` and produced
by `parse_unit_content` on success. -/
structure ContentBlock where
  content : String
  headings : List Heading
  code_blocks : List String
  images : List ImageInfo
  links : List LinkInfo
deriving DecidableEq

/-! ### Parsed pages and fetchers

Everything BeautifulSoup extracts from a fetched document, per rank.  An
`Anchor` is an `<a>` element with an `href` attribute: its href string and
its stripped visible text. -/

structure Anchor where
  href : String
  text : String
deriving DecidableEq

/-- Course overview page: h1 text (empty when the tag is missing or empty)
and the `data-learn-uid` values of the path articles, in document order. -/
structure CoursePage where
  title : String
  articleUids : List String
deriving DecidableEq

/-- Learning-path page: h1 text and all anchors, in document order. -/
structure PathPage where
  title : String
  anchors : List Anchor
deriving DecidableEq

/-- Module page: h1 text and all anchors carrying an href. -/
structure ModulePage where
  title : String
  anchors : List Anchor
deriving DecidableEq

/-- An `<img>` element of the main content region together with the document
facts `extract_image_context` reads: nearest preceding heading text, the
enclosing figure's caption text ("" when absent), and the next paragraph's
stripped text ("" when absent). -/
structure ImgTag where
  src : String
  alt : String
  titleAttr : String
  precedingHeading : String
  figureCaption : String
  nextParagraph : String
deriving DecidableEq

/-- A unit document's main content region (after `main`/`article` selection
and removal of script/style/nav/footer/header): its flattened text, headings
with levels, the stripped texts of `code`/`pre` elements, its images, and
its anchors. -/
structure UnitPage where
  text : String
  headings : List Heading
  codes : List String
  imgs : List ImgTag
  anchors : List Anchor
deriving DecidableEq

/-- The external world: one pure fetch-and-parse map per rank (`none` models
a failed `fetch_page`) plus `urllib.parse.urljoin` as an opaque function. -/
structure Fetchers where
  fetchCourse : String → Option CoursePage
  fetchPath : String → Option PathPage
  fetchModule : String → Option ModulePage
  fetchUnit : String → Option UnitPage
  join : String → String → String

/-- Decidable equality for `Except`, used to evaluate concrete crawls. -/
instance exceptDecEq [DecidableEq ε] [DecidableEq α] : DecidableEq (Except ε α) := fun a b =>
  match a, b with
  | .error x, .error y =>
    if h : x = y then .isTrue (by rw [h]) else .isFalse (by intro hc; cases hc; exact h rfl)
  | .ok x, .ok y =>
    if h : x = y then .isTrue (by rw [h]) else .isFalse (by intro hc; cases hc; exact h rfl)
  | .error _, .ok _ => .isFalse (by intro hc; cases hc)
  | .ok _, .error _ => .isFalse (by intro hc; cases hc)

/-- `self.base_url`. -/
def base_url : String := "https://learn.microsoft.com"

/-! ### Ordering engine: `extract_unit_number` -/

/-- `re.search(r'/(\d+)-', url)`: scan left to right for a `/`, a non-empty
digit run, then a `-`; return the digit run's value.  The maximal digit run
is the only candidate, since any shorter prefix of the run is followed by a
digit, not `-`. -/
def searchSlashNum : List Char → Option Nat
  | [] => none
  | c :: cs =>
    if c = '/' ∧ cs.takeWhile Char.isDigit ≠ [] ∧
        (cs.dropWhile Char.isDigit).head? = some '-' then
      some (digitsToNat (cs.takeWhile Char.isDigit))
    else
      searchSlashNum cs

/-- `re.search(r'^(\d+)[\.\s]', title)`. -/
def titleLeadNum (s : String) : Option Nat :=
  let ds := s.toList.takeWhile Char.isDigit
  match (s.toList.dropWhile Char.isDigit).head? with
  | some c => if ds ≠ [] ∧ (c = '.' ∨ isPySpace c) then some (digitsToNat ds) else none
  | none => none

/-- `extract_unit_number(unit_url, unit_title)`: URL digit hint, then title
digit hint, then the keyword table in its insertion order, else 500. -/
def extract_unit_number (unit_url unit_title : String) : Nat :=
  match searchSlashNum unit_url.toList with
  | some n => n
  | none =>
    match titleLeadNum unit_title with
    | some n => n
    | none =>
      let unit_lower := lowerStr unit_title
      if containsStr unit_lower "introduction" then 1
      else if containsStr unit_lower "summary" then 999
      else if containsStr unit_lower "assessment" then 998
      else if containsStr unit_lower "knowledge-check" then 998
      else if containsStr unit_lower "exercise" then 900
      else 500

/-! ### Image classification: `classify_image_type` -/

/-- `any(pattern in s for pattern in pats)`. -/
def anyContains (s : String) (pats : List String) : Bool :=
  pats.any fun p => containsStr s p

/-- `classify_image_type(src, alt_text)`: the full lowered `src` string is
matched against the filename pattern chains; only if none matches, the
lowered alt text is matched against the alt chains; else `illustration`. -/
def classify_image_type (src alt_text : String) : String :=
  let src_lower := lowerStr src
  let alt_lower := lowerStr alt_text
  if anyContains src_lower ["diagram", "architecture", "flowchart", "workflow"] then "diagram"
  else if anyContains src_lower ["screenshot", "screen", "ui", "interface"] then "screenshot"
  else if anyContains src_lower ["chart", "graph", "plot"] then "chart"
  else if anyContains src_lower ["code", "snippet", "example"] then "code_example"
  else if anyContains src_lower ["icon", "logo", "badge"] then "icon"
  else if anyContains alt_lower ["diagram", "architecture", "flowchart", "workflow", "hierarchy"] then "diagram"
  else if anyContains alt_lower ["screenshot", "screen", "interface", "portal", "page", "window"] then "screenshot"
  else if anyContains alt_lower ["chart", "graph", "plot", "visualization"] then "chart"
  else if anyContains alt_lower ["code", "snippet", "example", "syntax"] then "code_example"
  else if anyContains alt_lower ["icon", "logo", "badge", "button"] then "icon"
  else "illustration"

/-! ### `parse_course_page` -/

/-- The pure part of `parse_course_page` applied to a successfully fetched
page: course metadata plus one fresh path entry per article whose
`data-learn-uid` starts with `learn.` (title generated from the slug). -/
def parse_course_page_data (course_url : String) (pg : CoursePage) : CourseData :=
  { url := course_url
    title := pg.title
    description := ""
    learning_paths := pg.articleUids.filterMap fun learn_uid =>
      if learn_uid ≠ "" ∧ startsWithStr learn_uid "learn." then
        let path_slug := String.mk ((splitOnChar '.' learn_uid.toList).getLastD [])
        some { title := pyTitle (pyReplace path_slug "-" " ")
               url := base_url ++ "/en-us/training/paths/" ++ path_slug ++ "/"
               learn_uid := learn_uid
               modules := none }
      else none }

/-! ### `parse_learning_path` -/

/-- URL normalisation of a module href inside `parse_learning_path`. -/
def resolve_module_url (join : String → String → String) (path_url href : String) : String :=
  let module_url :=
    if startsWithStr href "../../modules/" then
      pyReplace href "../../modules/" (base_url ++ "/en-us/training/modules/")
    else if startsWithStr href "/modules/" then
      base_url ++ "/en-us/training" ++ href
    else if startsWithStr href "/training/modules/" then
      base_url ++ href
    else
      join path_url href
  if endsWithStr module_url "/" then module_url else module_url ++ "/"

/-- A bare module entry `{'title': .., 'url': ..}` (no `'units'` key). -/
def bareModule (title url : String) : ModuleData :=
  { title := title, url := url, description := "", learning_objectives := []
    prerequisites := [], units := none }

/-- The per-anchor loop of `parse_learning_path`: `seen` is the
`seen_modules` set, `acc` the module list built so far.  An anchor with
empty visible text, or whose resolved URL was already seen, adds nothing. -/
def parse_lp_fold (join : String → String → String) (path_url : String)
    (seen : List String) (acc : List ModuleData) : List Anchor → List ModuleData
  | [] => acc
  | a :: rest =>
    let module_url := resolve_module_url join path_url a.href
    if a.text ≠ "" ∧ module_url ∉ seen then
      parse_lp_fold join path_url (module_url :: seen) (acc ++ [bareModule a.text module_url]) rest
    else
      parse_lp_fold join path_url seen acc rest

/-- Result dict of `parse_learning_path` on a successfully fetched page. -/
structure LPData where
  url : String
  title : String
  modules : List ModuleData
deriving DecidableEq

/-- The pure part of `parse_learning_path`: the anchor filter
(`'modules' in href`) models the `find_all` predicate. -/
def parse_learning_path_data (join : String → String → String)
    (path_url : String) (pg : PathPage) : LPData :=
  { url := path_url
    title := pg.title
    modules := parse_lp_fold join path_url [] []
      (pg.anchors.filter fun a => containsStr a.href "modules") }

/-! ### `parse_module_page` -/

/-- The unit-link condition of `parse_module_page`, with Python's operator
precedence: `(href and unit_title and any(keyword in href)) or
any(href.startswith(f'{i}-') for i in range(1, 20))`. -/
def unit_recognized (href title : String) : Bool :=
  (decide (href ≠ "") && decide (title ≠ "") &&
    (["introduction", "summary", "assessment", "exercise"].any fun k => containsStr href k))
  || ((List.range' 1 19).any fun i => startsWithStr href (String.mk (natToChars i) ++ "-"))

/-- One candidate unit dict per recognised anchor, in discovery order. -/
def module_unit_candidates (join : String → String → String)
    (module_url : String) (anchors : List Anchor) : List UnitData :=
  anchors.filterMap fun a =>
    if unit_recognized a.href a.text then
      let unit_url := join module_url a.href
      some { number := extract_unit_number unit_url a.text
             title := a.text, url := unit_url, href := a.href
             content := "", headings := [], code_blocks := [], images := []
             links := [], content_skipped := false }
    else none

/-- URL deduplication of unit links, first occurrence winning (`seen_urls`). -/
def dedup_units (seen : List String) : List UnitData → List UnitData
  | [] => []
  | u :: rest =>
    if u.url ∈ seen then dedup_units seen rest
    else u :: dedup_units (u.url :: seen) rest

/-- Stable insertion of a unit before the first strictly greater key;
together with `sortByNumber` this is the extensional behaviour of the stable
Python `list.sort(key=lambda x: x['number'])`. -/
def orderedInsertNum (x : UnitData) : List UnitData → List UnitData
  | [] => [x]
  | h :: t => if x.number ≤ h.number then x :: h :: t else h :: orderedInsertNum x t

/-- Stable ascending sort by the `number` key. -/
def sortByNumber : List UnitData → List UnitData
  | [] => []
  | h :: t => orderedInsertNum h (sortByNumber t)

/-- The pure part of `parse_module_page` on a successfully fetched page:
recognise unit links, deduplicate by resolved URL, sort by unit number. -/
def parse_module_page_data (join : String → String → String)
    (module_url : String) (pg : ModulePage) : ModuleData :=
  { title := pg.title
    url := module_url
    description := ""
    learning_objectives := []
    prerequisites := []
    units := some (sortByNumber (dedup_units [] (module_unit_candidates join module_url pg.anchors))) }

/-! ### `parse_unit_content` -/

/-- Image src resolution inside `parse_unit_content`. -/
def resolve_img_src (join : String → String → String) (unit_url src : String) : String :=
  if startsWithStr src "../../" then
    "https://learn.microsoft.com/en-us/" ++ String.mk (src.toList.drop 6)
  else if startsWithStr src "/" then
    "https://learn.microsoft.com" ++ src
  else if ¬ startsWithStr src "http" then
    join unit_url src
  else
    src

/-- `extract_image_context(img)`: following text is kept only when longer
than 10 chars, truncated to 200; `parent_section` is initialised and never
written. -/
def extract_image_context (img : ImgTag) : ImageContext :=
  { preceding_heading := img.precedingHeading
    following_text :=
      if 10 < img.nextParagraph.toList.length then
        String.mk (img.nextParagraph.toList.take 200)
      else ""
    figure_caption := img.figureCaption
    parent_section := "" }

/-- The image record built for one `<img>` with a non-empty src. -/
def mk_image_info (join : String → String → String) (unit_url : String) (img : ImgTag) : ImageInfo :=
  let absolute_src := resolve_img_src join unit_url img.src
  let fname := basenameStr absolute_src
  { src := img.src
    absolute_url := absolute_src
    alt_text := img.alt
    title := img.titleAttr
    filename :=
      if containsStr fname "?" then String.mk ((splitOnChar '?' fname.toList).headD [])
      else fname
    image_type := classify_image_type img.src img.alt
    context := extract_image_context img }

/-- Outcome of `parse_unit_content`: `{'content_skipped': True}`, `{}` on
fetch failure, or the content dict. -/
inductive UnitParse where
  | skipped : UnitParse
  | failed : UnitParse
  | ok : ContentBlock → UnitParse
deriving DecidableEq

/-- `parse_unit_content(unit_url)`. -/
def parse_unit_content (extract_content : Bool) (fetchUnit : String → Option UnitPage)
    (join : String → String → String) (unit_url : String) : UnitParse :=
  if ¬ extract_content then .skipped
  else
    match fetchUnit unit_url with
    | none => .failed
    | some pg =>
      .ok { content := pg.text
            headings := pg.headings
            code_blocks := pg.codes.filter fun c => 10 < c.toList.length
            images := (pg.imgs.filter fun i => i.src ≠ "").map (mk_image_info join unit_url)
            links := pg.anchors.filterMap fun a =>
              if a.href ≠ "" ∧ a.text ≠ "" then some ⟨a.href, a.text⟩ else none }

/-! ### Resume lookup: `get_existing_unit_content` -/

/-- The content fields of a unit dict, as the dict returned by
`get_existing_unit_content`. -/
def unitContentBlock (u : UnitData) : ContentBlock :=
  ⟨u.content, u.headings, u.code_blocks, u.images, u.links⟩

/-- `get_existing_unit_content(existing_data, path_title, module_title,
unit_title)`: three nested linear scans without breaks; a unit matches only
with a truthy `'content'`. -/
def get_existing_unit_content (existing_data : CourseData)
    (path_title module_title unit_title : String) : Option ContentBlock :=
  existing_data.learning_paths.findSome? fun p =>
    if p.title = path_title then
      (p.modules.getD []).findSome? fun m =>
        if m.title = module_title then
          (m.units.getD []).findSome? fun u =>
            if u.title = unit_title ∧ u.content ≠ "" then some (unitContentBlock u)
            else none
        else none
    else none

/-! ### Tree builder / crawler: `scrape_course`

The loops mutate the course tree in place while, in a resumed run,
`get_existing_unit_content` is called on `existing_data` — which *aliases*
`course_data` (`course_data = existing_data`).  The embedding therefore
passes every piece needed to rebuild the tree as it stands at the moment of
each lookup: processed prefixes, the current partially-updated entry, and
the untouched suffixes (including entries beyond the configured limits,
which stay in the full lists). -/

/-- Scraper limits and toggles.  Python tests limits for truthiness
(`if self.max_paths:`), so `some 0` behaves like `none`. -/
structure Config where
  max_paths : Option Nat
  max_modules_per_path : Option Nat
  max_units_per_module : Option Nat
  extract_content : Bool

/-- `lst[:limit]` / `lst[limit:]` under Python truthiness of the limit. -/
def splitLimit (lim : Option Nat) (l : List α) : List α × List α :=
  match lim with
  | none => (l, [])
  | some 0 => (l, [])
  | some (k + 1) => (l.take (k + 1), l.drop (k + 1))

/-- `unit_info.update(content_dict)`: content fields overwritten, identity
fields kept. -/
def updateWithContent (u : UnitData) (cb : ContentBlock) : UnitData :=
  { u with content := cb.content, headings := cb.headings
           code_blocks := cb.code_blocks, images := cb.images, links := cb.links }

/-- The per-unit body of the innermost loop: in a resumed run, look up the
unit in the current (aliased, partially mutated) tree and copy the prior
content when found; otherwise fetch and extract when enabled. -/
def process_unit (cfg : Config) (F : Fetchers) (hasExisting : Bool)
    (tree : CourseData) (path_title module_title : String) (u : UnitData) : UnitData :=
  match (if hasExisting then get_existing_unit_content tree path_title module_title u.title else none) with
  | some cb => updateWithContent u cb
  | none =>
    if cfg.extract_content then
      match parse_unit_content cfg.extract_content F.fetchUnit F.join u.url with
      | .skipped => { u with content_skipped := true }
      | .failed => u
      | .ok cb => updateWithContent u cb
    else u

/-- The tree as `existing_data` sees it while the unit at the head of
`unitsRest` is being processed. -/
def mkTreeU (base : CourseData) (pathsDone : List PathEntry) (curPath : PathEntry)
    (modsDone : List ModuleData) (curMod : ModuleData)
    (unitsDone unitsRest : List UnitData)
    (modsRest : List ModuleData) (pathsRest : List PathEntry) : CourseData :=
  let curModNow : ModuleData := { curMod with units := some (unitsDone ++ unitsRest) }
  let curPathNow : PathEntry := { curPath with modules := some (modsDone ++ [curModNow] ++ modsRest) }
  { base with learning_paths := pathsDone ++ [curPathNow] ++ pathsRest }

/-- The unit loop over `units_to_process`; `beyond` holds the units past the
configured limit, which remain (unprocessed) in the module's list. -/
def crawl_units (cfg : Config) (F : Fetchers) (hasExisting : Bool)
    (base : CourseData) (pathsDone : List PathEntry) (curPath : PathEntry)
    (modsDone : List ModuleData) (curMod : ModuleData)
    (modsRest : List ModuleData) (pathsRest : List PathEntry)
    (unitsDone : List UnitData) : List UnitData → List UnitData → List UnitData
  | [], beyond => unitsDone ++ beyond
  | u :: todo, beyond =>
    let tree := mkTreeU base pathsDone curPath modsDone curMod unitsDone (u :: (todo ++ beyond)) modsRest pathsRest
    let u' := process_unit cfg F hasExisting tree curPath.title curMod.title u
    crawl_units cfg F hasExisting base pathsDone curPath modsDone curMod modsRest pathsRest
      (unitsDone ++ [u']) todo beyond

/-- The module loop.  On a fetch failure `module_data = {}` leaves the bare
entry unchanged, and `module_info['units']` raises `KeyError` when the key is
absent — there is no skip guard at this rank. -/
def crawl_modules (cfg : Config) (F : Fetchers) (hasExisting : Bool)
    (base : CourseData) (pathsDone : List PathEntry) (curPath : PathEntry)
    (pathsRest : List PathEntry)
    (modsDone : List ModuleData) : List ModuleData → List ModuleData → Except String (List ModuleData)
  | [], beyond => .ok (modsDone ++ beyond)
  | m :: todo, beyond =>
    match F.fetchModule m.url with
    | none =>
      match m.units with
      | none => .error "KeyError: units"
      | some us =>
        let split := splitLimit cfg.max_units_per_module us
        let units' := crawl_units cfg F hasExisting base pathsDone curPath modsDone m
          (todo ++ beyond) pathsRest [] split.1 split.2
        crawl_modules cfg F hasExisting base pathsDone curPath pathsRest
          (modsDone ++ [{ m with units := some units' }]) todo beyond
    | some pg =>
      let fresh := parse_module_page_data F.join m.url pg
      let split := splitLimit cfg.max_units_per_module (fresh.units.getD [])
      let units' := crawl_units cfg F hasExisting base pathsDone curPath modsDone fresh
        (todo ++ beyond) pathsRest [] split.1 split.2
      crawl_modules cfg F hasExisting base pathsDone curPath pathsRest
        (modsDone ++ [{ fresh with units := some units' }]) todo beyond

/-- The path loop.  A path fetch failure leaves the entry untouched and
continues with the next sibling (`if not path_data ...: continue`). -/
def crawl_paths (cfg : Config) (F : Fetchers) (hasExisting : Bool)
    (base : CourseData)
    (pathsDone : List PathEntry) : List PathEntry → List PathEntry → Except String (List PathEntry)
  | [], beyond => .ok (pathsDone ++ beyond)
  | p :: todo, beyond =>
    match F.fetchPath p.url with
    | none => crawl_paths cfg F hasExisting base (pathsDone ++ [p]) todo beyond
    | some pg =>
      let lp := parse_learning_path_data F.join p.url pg
      let p1 : PathEntry := { p with url := lp.url, title := lp.title, modules := some lp.modules }
      let split := splitLimit cfg.max_modules_per_path lp.modules
      match crawl_modules cfg F hasExisting base pathsDone p1 (todo ++ beyond) [] split.1 split.2 with
      | .error e => .error e
      | .ok mods' =>
        crawl_paths cfg F hasExisting base (pathsDone ++ [{ p1 with modules := some mods' }]) todo beyond

/-- `load_existing_data`: re-parses the course page to derive the output
filename; a course fetch failure makes it return `None`.  `disk` models the
persisted `*_complete.json` for this course (`none` for a missing or corrupt
file). -/
def load_existing_data (F : Fetchers) (course_url : String)
    (disk : Option CourseData) : Option CourseData :=
  match F.fetchCourse course_url with
  | none => none
  | some _ => disk

/-- `scrape_course(course_url, resume=..)`.  `.error` models an uncaught
exception escaping `scrape_course`; `.ok none` models the `return {}` taken
when no learning paths were found; `.ok (some c)` is a returned tree.  A
course fetch failure makes `parse_course_page` return `{}`, and line 429
(`course_data['learning_paths']`) then raises `KeyError`. -/
def scrape_course (cfg : Config) (F : Fetchers) (course_url : String)
    (resume : Bool) (disk : Option CourseData) : Except String (Option CourseData) :=
  match (if resume then load_existing_data F course_url disk else none) with
  | some existing =>
    let split := splitLimit cfg.max_paths existing.learning_paths
    match crawl_paths cfg F true existing [] split.1 split.2 with
    | .error e => .error e
    | .ok ps => .ok (some { existing with learning_paths := ps })
  | none =>
    match F.fetchCourse course_url with
    | none => .error "KeyError: learning_paths"
    | some pg =>
      let c := parse_course_page_data course_url pg
      if c.learning_paths.isEmpty then .ok none
      else
        let split := splitLimit cfg.max_paths c.learning_paths
        match crawl_paths cfg F false c [] split.1 split.2 with
        | .error e => .error e
        | .ok ps => .ok (some { c with learning_paths := ps })

/-! ### Serializer: `generate_training_jsonl` -/

/-- One JSONL record (`json.dumps(record)` is one output line; two records
differing in any field — in particular `scraped_at`, whose value is embedded
verbatim in the line — yield different bytes). -/
structure TrainingRecord where
  course_title : String
  learning_path : String
  module_title : String
  unit_title : String
  unit_url : String
  content : String
  headings : List Heading
  code_blocks : List String
  images : List ImageInfo
  scraped_at : String
deriving DecidableEq

/-- The tree-order record stream without timestamps: one record per unit
with truthy content. -/
def flat_records (c : CourseData) : List TrainingRecord :=
  c.learning_paths.flatMap fun p =>
    (p.modules.getD []).flatMap fun m =>
      (m.units.getD []).filterMap fun u =>
        if u.content ≠ "" then
          some { course_title := c.title, learning_path := p.title
                 module_title := m.title, unit_title := u.title, unit_url := u.url
                 content := u.content, headings := u.headings
                 code_blocks := u.code_blocks, images := u.images, scraped_at := "" }
        else none

/-- `generate_training_jsonl`: each record is stamped with
`datetime.now().isoformat()` at write time, modelled as a clock indexed by
the record's position in the stream. -/
def generate_training_jsonl (c : CourseData) (now : Nat → String) : List TrainingRecord :=
  (flat_records c).enum.map fun ir =>
    match ir with
    | (i, r) => { r with scraped_at := now i }

/-- A record with its timestamp field blanked, for comparisons up to
`scraped_at`. -/
def stripTs (r : TrainingRecord) : TrainingRecord := { r with scraped_at := "" }

/-! ### `main` -/

/-- Completion of one `main()` invocation: the success path with artifacts
written, the `"Failed to scrape course - no data extracted"` path, or the
blanket `except Exception` handler printing a traceback.  `main` returns
normally in all three cases. -/
inductive MainOutcome where
  | success : CourseData → MainOutcome
  | noData : MainOutcome
  | errorCaught : String → MainOutcome
deriving DecidableEq

/-- `main()` around `scrape_course`: every exception is caught by the
`try/except Exception` block. -/
def mainRun (cfg : Config) (F : Fetchers) (course_url : String)
    (resume : Bool) (disk : Option CourseData) : MainOutcome :=
  match scrape_course cfg F course_url resume disk with
  | .error e => .errorCaught e
  | .ok none => .noData
  | .ok (some c) => .success c

/-- The process exit status for a completed `main()`: the script never calls
`sys.exit` and `main` returns `None` on every path (including the exception
handler), so CPython exits with status 0 regardless of the outcome. -/
def mainExitCode (_ : MainOutcome) : Nat := 0

/-! ### Spec-side comparison models

Definitions written from the claims' words (not from the source), used only
to state refutations of claims that mis-describe the source. -/

/-- Modelled from the claim's words (C8), for comparison with
`unit_recognized`: an anchor is a unit link exactly when its href contains a
keyword, or the href's *last path segment* starts with `{1..19}-`. -/
def spec_unit_link_recognized (href : String) : Bool :=
  (["introduction", "summary", "assessment", "exercise"].any fun k => containsStr href k)
  || ((List.range' 1 19).any fun i =>
        startsWithStr (String.mk ((splitOnChar '/' href.toList).getLastD []))
          (String.mk (natToChars i) ++ "-"))

/-- Modelled from the claim's words (C9), for comparison with
`classify_image_type`: match the category substrings against the lower-cased
*filename* first, then against the alt text. -/
def spec_classify_image_type (src alt_text : String) : String :=
  let fname_lower := lowerStr (basenameStr src)
  let alt_lower := lowerStr alt_text
  if anyContains fname_lower ["diagram", "architecture", "flowchart", "workflow"] then "diagram"
  else if anyContains fname_lower ["screenshot", "screen", "ui", "interface"] then "screenshot"
  else if anyContains fname_lower ["chart", "graph", "plot"] then "chart"
  else if anyContains fname_lower ["code", "snippet", "example"] then "code_example"
  else if anyContains fname_lower ["icon", "logo", "badge"] then "icon"
  else if anyContains alt_lower ["diagram", "architecture", "flowchart", "workflow", "hierarchy"] then "diagram"
  else if anyContains alt_lower ["screenshot", "screen", "interface", "portal", "page", "window"] then "screenshot"
  else if anyContains alt_lower ["chart", "graph", "plot", "visualization"] then "chart"
  else if anyContains alt_lower ["code", "snippet", "example", "syntax"] then "code_example"
  else if anyContains alt_lower ["icon", "logo", "badge", "button"] then "icon"
  else "illustration"

/-- Whether any filename-chain pattern of `classify_image_type` occurs in
the lowered source string (the guard under which the alt text is ignored). -/
def src_has_pattern (src : String) : Bool :=
  let s := lowerStr src
  anyContains s ["diagram", "architecture", "flowchart", "workflow"] ||
  anyContains s ["screenshot", "screen", "ui", "interface"] ||
  anyContains s ["chart", "graph", "plot"] ||
  anyContains s ["code", "snippet", "example"] ||
  anyContains s ["icon", "logo", "badge"]

/-- The alt-text half of `classify_image_type`, reached when no filename
pattern matched. -/
def classify_alt_fallback (alt_text : String) : String :=
  let alt_lower := lowerStr alt_text
  if anyContains alt_lower ["diagram", "architecture", "flowchart", "workflow", "hierarchy"] then "diagram"
  else if anyContains alt_lower ["screenshot", "screen", "interface", "portal", "page", "window"] then "screenshot"
  else if anyContains alt_lower ["chart", "graph", "plot", "visualization"] then "chart"
  else if anyContains alt_lower ["code", "snippet", "example", "syntax"] then "code_example"
  else if anyContains alt_lower ["icon", "logo", "badge", "button"] then "icon"
  else "illustration"

/-! ### Pure single-pass processors

In a fresh run (`existing_data is None`) every lookup is skipped, so the
crawl is a pure per-entry map; these definitions name that pure behaviour
and are proved equal to the `crawl_*` loops with `hasExisting = false`.
They drive the idempotence analysis of claim C2. -/

/-- `process_unit` without a resume lookup. -/
def process_unit1 (cfg : Config) (F : Fetchers) (u : UnitData) : UnitData :=
  if cfg.extract_content then
    match parse_unit_content cfg.extract_content F.fetchUnit F.join u.url with
    | .skipped => { u with content_skipped := true }
    | .failed => u
    | .ok cb => updateWithContent u cb
  else u

/-- The module step of a fresh run, as a pure function of the entry. -/
def process_module1 (cfg : Config) (F : Fetchers) (m : ModuleData) : Except String ModuleData :=
  match F.fetchModule m.url with
  | none =>
    match m.units with
    | none => .error "KeyError: units"
    | some us =>
      let split := splitLimit cfg.max_units_per_module us
      .ok { m with units := some (split.1.map (process_unit1 cfg F) ++ split.2) }
  | some pg =>
    let fresh := parse_module_page_data F.join m.url pg
    let split := splitLimit cfg.max_units_per_module (fresh.units.getD [])
    .ok { fresh with units := some (split.1.map (process_unit1 cfg F) ++ split.2) }

/-- Left-to-right sequencing of the module steps. -/
def process_modules1 (cfg : Config) (F : Fetchers) : List ModuleData → Except String (List ModuleData)
  | [] => .ok []
  | m :: rest =>
    match process_module1 cfg F m with
    | .error e => .error e
    | .ok m' =>
      match process_modules1 cfg F rest with
      | .error e => .error e
      | .ok rest' => .ok (m' :: rest')

/-- The path step of a fresh run, as a pure function of the entry. -/
def process_path1 (cfg : Config) (F : Fetchers) (p : PathEntry) : Except String PathEntry :=
  match F.fetchPath p.url with
  | none => .ok p
  | some pg =>
    let lp := parse_learning_path_data F.join p.url pg
    let p1 : PathEntry := { p with url := lp.url, title := lp.title, modules := some lp.modules }
    let split := splitLimit cfg.max_modules_per_path lp.modules
    match process_modules1 cfg F split.1 with
    | .error e => .error e
    | .ok ms => .ok { p1 with modules := some (ms ++ split.2) }

/-- Left-to-right sequencing of the path steps. -/
def process_paths1 (cfg : Config) (F : Fetchers) : List PathEntry → Except String (List PathEntry)
  | [] => .ok []
  | p :: rest =>
    match process_path1 cfg F p with
    | .error e => .error e
    | .ok p' =>
      match process_paths1 cfg F rest with
      | .error e => .error e
      | .ok rest' => .ok (p' :: rest')

/-! ### Concrete worlds

Small fixed fetchers used to evaluate the model at explicit inputs.  The
join function agrees with `urllib.parse.urljoin` on every pair it is applied
to here (a base URL ending in `/` joined with a relative path). -/

/-- Concrete `urljoin` stand-in: on the inputs below, `urljoin(b, r)` for a
base ending in `/` and a bare relative path `r` is `b ++ r`. -/
def idJoin : String → String → String := fun b r => b ++ r

/-- Default configuration: no limits, content extraction on. -/
def cfg0 : Config := ⟨none, none, none, true⟩

def courseUrl0 : String := "https://learn.microsoft.com/en-us/training/courses/az-900t00"

def pathUrl0 : String := base_url ++ "/en-us/training/paths/p1/"

def modUrl0 : String := base_url ++ "/training/modules/m1/"

def unitUrl0 : String := modUrl0 ++ "1-introduction/"

/-- A one-path, one-module, one-unit course world where every fetch
succeeds. -/
def F0 : Fetchers :=
  { fetchCourse := fun u => if u = courseUrl0 then some ⟨"Course T", ["learn.wwl.p1"]⟩ else none
    fetchPath := fun u =>
      if u = pathUrl0 then some ⟨"Path One", [⟨"/training/modules/m1/", "Module One"⟩]⟩ else none
    fetchModule := fun u =>
      if u = modUrl0 then some ⟨"Mod One", [⟨"1-introduction/", "Intro"⟩]⟩ else none
    fetchUnit := fun u =>
      if u = unitUrl0 then some ⟨"This is the unit content text.", [], [], [], []⟩ else none
    join := idJoin }

/-- The unit of the `F0` world after extraction. -/
def unit0 : UnitData :=
  { number := 1, title := "Intro", url := unitUrl0, href := "1-introduction/"
    content := "This is the unit content text.", headings := [], code_blocks := [], images := []
    links := [], content_skipped := false }

/-- `unit0` as freshly discovered, before extraction. -/
def unitFresh0 : UnitData := { unit0 with content := "" }

def mod0 : ModuleData :=
  { title := "Mod One", url := modUrl0, description := "", learning_objectives := []
    prerequisites := [], units := some [unit0] }

def path0 : PathEntry :=
  { title := "Path One", url := pathUrl0, learn_uid := "learn.wwl.p1", modules := some [mod0] }

/-- The tree produced by a fresh run against `F0`. -/
def tree0 : CourseData :=
  { url := courseUrl0, title := "Course T", description := "", learning_paths := [path0] }

def pathUrl3 : String := base_url ++ "/en-us/training/paths/p3/"

def modUrlA : String := base_url ++ "/training/modules/ma/"

def modUrlB : String := base_url ++ "/training/modules/mb/"

def modUrlC : String := base_url ++ "/training/modules/mc/"

/-- The path page of the `F3` world, listing three modules. -/
def pathPage3 : PathPage :=
  ⟨"Path Three",
   [⟨"/training/modules/ma/", "Module A"⟩, ⟨"/training/modules/mb/", "Module B"⟩,
    ⟨"/training/modules/mc/", "Module C"⟩]⟩

/-- A world with one path listing three modules, where exactly the middle
module's fetch fails. -/
def F3 : Fetchers :=
  { fetchCourse := fun u => if u = courseUrl0 then some ⟨"Course T", ["learn.wwl.p3"]⟩ else none
    fetchPath := fun u => if u = pathUrl3 then some pathPage3 else none
    fetchModule := fun u =>
      if u = modUrlB then none
      else if u = modUrlA then some ⟨"Mod A", [⟨"1-introduction/", "Intro"⟩]⟩
      else if u = modUrlC then some ⟨"Mod C", [⟨"1-introduction/", "Intro"⟩]⟩
      else none
    fetchUnit := fun _ => some ⟨"content text here", [], [], [], []⟩
    join := idJoin }

/-- A world where every fetch fails (in particular the course fetch). -/
def F4 : Fetchers :=
  { fetchCourse := fun _ => none, fetchPath := fun _ => none
    fetchModule := fun _ => none, fetchUnit := fun _ => none, join := idJoin }

/-- A world whose course page carries no `learn.`-prefixed article uid, so
no learning paths are found. -/
def F5 : Fetchers :=
  { fetchCourse := fun u => if u = courseUrl0 then some ⟨"Course T", ["bogus.uid"]⟩ else none
    fetchPath := fun _ => none, fetchModule := fun _ => none
    fetchUnit := fun _ => none, join := idJoin }

/-- Module URL for the C5 ordering example. -/
def modUrl5 : String := base_url ++ "/en-us/training/modules/sample/"

def exIntro : Anchor := ⟨"1-introduction/", "1-introduction"⟩

def exProvision : Anchor := ⟨"2-provision/", "2-provision"⟩

def exSummary : Anchor := ⟨"3-summary/", "3-summary"⟩

/-- All six discovery orders of the three example unit anchors of C5. -/
def exOrders : List (List Anchor) :=
  [[exIntro, exProvision, exSummary], [exIntro, exSummary, exProvision],
   [exProvision, exIntro, exSummary], [exProvision, exSummary, exIntro],
   [exSummary, exIntro, exProvision], [exSummary, exProvision, exIntro]]

/-! ## Helper lemmas -/

theorem findSome?_isSome_iff {f : α → Option β} {l : List α} :
    (l.findSome? f).isSome ↔ ∃ a ∈ l, (f a).isSome := by
  induction l with
  | nil => simp [List.findSome?]
  | cons a as ih =>
    rw [List.findSome?_cons]
    cases h : f a with
    | none => simp [h, ih]
    | some b => simp [h]

theorem isSome_ite_none (c : Prop) [Decidable c] (x : Option β) :
    (if c then x else none).isSome ↔ c ∧ x.isSome := by
  split <;> simp_all

theorem eq_some_of_ite {c : Prop} [Decidable c] {x : Option β} {b : β}
    (h : (if c then x else none) = some b) : c ∧ x = some b := by
  by_cases hc : c
  · rw [if_pos hc] at h; exact ⟨hc, h⟩
  · rw [if_neg hc] at h; cases h

/-! ## Claim C6 -/

/-- Claim C6 counterexample: a unit titled "Knowledge check" whose URL has
no `/digits-` segment and whose title has no leading numeric token receives
OrderKey 500, not 998 — the table key `knowledge-check` never matches the
space-separated title. -/
theorem C6_knowledge_check_counterexample :
    searchSlashNum ("https://learn.microsoft.com/en-us/training/modules/manage/knowledge-check/").toList = none ∧
    titleLeadNum "Knowledge check" = none ∧
    extract_unit_number "https://learn.microsoft.com/en-us/training/modules/manage/knowledge-check/"
      "Knowledge check" = 500 ∧
    extract_unit_number "https://learn.microsoft.com/en-us/training/modules/manage/knowledge-check/"
      "Knowledge check" ≠ 998 := by decide

/-- Claim C6 amended: for every URL without a `/digits-` hint, a unit titled
"Knowledge check" receives OrderKey 500 (the fallback table's hyphenated key
does not match), while a title carrying the literal substring
"knowledge-check" receives 998. -/
theorem C6_knowledge_check_amended :
    (∀ url : String, searchSlashNum url.toList = none →
      extract_unit_number url "Knowledge check" = 500) ∧
    (∀ url : String, searchSlashNum url.toList = none →
      extract_unit_number url "Knowledge-check" = 998) := by
  constructor <;> (intro url h; unfold extract_unit_number; rw [h]; decide)

/-- Witness for C6: the amended facts at a concrete URL. -/
theorem C6_knowledge_check_witness :
    extract_unit_number "https://x/m/kc/" "Knowledge check" = 500 ∧
    extract_unit_number "https://x/m/kc/" "Knowledge-check" = 998 :=
  ⟨C6_knowledge_check_amended.1 "https://x/m/kc/" (by decide),
   C6_knowledge_check_amended.2 "https://x/m/kc/" (by decide)⟩

/-! ## Claim C9 -/

/-- Claim C9 counterexample: the code matches the category substrings
against the whole lowered `src` string, not against the filename: for
`media/diagram/photo.png` (filename `photo.png`, alt "Overview") the code
returns `diagram` while the claim's filename-first rule gives
`illustration`. -/
theorem C9_classification_counterexample :
    classify_image_type "media/diagram/photo.png" "Overview" = "diagram" ∧
    spec_classify_image_type "media/diagram/photo.png" "Overview" = "illustration" ∧
    classify_image_type "media/diagram/photo.png" "Overview" ≠
      spec_classify_image_type "media/diagram/photo.png" "Overview" := by decide

/-- Claim C9 amended: classification matches the ordered category substrings
against the lower-cased *full source string* first; the alt text is
consulted (with the alt chains) only when no source pattern matches; both
concrete examples of the claim hold. -/
theorem C9_classification_amended :
    (∀ src alt alt' : String, src_has_pattern src = true →
      classify_image_type src alt = classify_image_type src alt') ∧
    (∀ src alt : String, src_has_pattern src = false →
      classify_image_type src alt = classify_alt_fallback alt) ∧
    classify_image_type "https://learn.microsoft.com/media/architecture-diagram.png" "Overview"
      = "diagram" ∧
    classify_image_type "https://learn.microsoft.com/media/pic1.png" "Portal screenshot"
      = "screenshot" := by
  refine ⟨?_, ?_, by decide, by decide⟩
  · intro src alt alt' h
    unfold src_has_pattern at h
    unfold classify_image_type
    simp only [Bool.or_eq_true] at h
    rcases h with ((((h1 | h2) | h3) | h4) | h5)
    · simp [h1]
    · by_cases h1 : anyContains (lowerStr src) ["diagram", "architecture", "flowchart", "workflow"] = true <;>
        simp [h1, h2]
    · by_cases h1 : anyContains (lowerStr src) ["diagram", "architecture", "flowchart", "workflow"] = true
      · simp [h1]
      · by_cases h2 : anyContains (lowerStr src) ["screenshot", "screen", "ui", "interface"] = true <;>
          simp [h1, h2, h3]
    · by_cases h1 : anyContains (lowerStr src) ["diagram", "architecture", "flowchart", "workflow"] = true
      · simp [h1]
      · by_cases h2 : anyContains (lowerStr src) ["screenshot", "screen", "ui", "interface"] = true
        · simp [h1, h2]
        · by_cases h3 : anyContains (lowerStr src) ["chart", "graph", "plot"] = true <;>
            simp [h1, h2, h3, h4]
    · by_cases h1 : anyContains (lowerStr src) ["diagram", "architecture", "flowchart", "workflow"] = true
      · simp [h1]
      · by_cases h2 : anyContains (lowerStr src) ["screenshot", "screen", "ui", "interface"] = true
        · simp [h1, h2]
        · by_cases h3 : anyContains (lowerStr src) ["chart", "graph", "plot"] = true
          · simp [h1, h2, h3]
          · by_cases h4 : anyContains (lowerStr src) ["code", "snippet", "example"] = true <;>
              simp [h1, h2, h3, h4, h5]
  · intro src alt h
    unfold src_has_pattern at h
    unfold classify_image_type classify_alt_fallback
    simp only [Bool.or_eq_false_iff] at h
    obtain ⟨⟨⟨⟨h1, h2⟩, h3⟩, h4⟩, h5⟩ := h
    simp [h1, h2, h3, h4, h5]

/-- Witness for C9: the amended precedence facts at concrete inputs. -/
theorem C9_classification_witness :
    classify_image_type "media/diagram/photo.png" "Overview" =
      classify_image_type "media/diagram/photo.png" "Portal screenshot" ∧
    classify_image_type "media/pic2.png" "Overview" = classify_alt_fallback "Overview" :=
  ⟨C9_classification_amended.1 "media/diagram/photo.png" "Overview" "Portal screenshot" (by decide),
   C9_classification_amended.2.1 "media/pic2.png" "Overview" (by decide)⟩

/-! ## Claim C3 -/

/-- Claim C3 (code bug): in a path listing three modules where exactly the
middle module's fetch fails, the crawl does not skip that module — the bare
module entry has no `units` key, `module_info['units']` raises `KeyError`,
and the whole scrape aborts with no output at all (the other two modules are
not produced). -/
theorem C3_module_failure_aborts_crawl :
    (parse_learning_path_data idJoin pathUrl3 pathPage3).modules.length = 3 ∧
    F3.fetchModule modUrlB = none ∧
    (F3.fetchModule modUrlA).isSome ∧
    (F3.fetchModule modUrlC).isSome ∧
    scrape_course cfg0 F3 courseUrl0 false none = Except.error "KeyError: units" := by decide

/-! ## Claim C4 -/

/-- Claim C4 counterexample: on a course-rank fetch failure the pipeline
does not reach the "no data extracted" state — line 429 raises `KeyError`,
caught by the blanket handler in `main` — and the process completion status
is 0, identical to the success status, not non-zero. -/
theorem C4_exit_state_counterexample :
    F4.fetchCourse courseUrl0 = none ∧
    mainRun cfg0 F4 courseUrl0 true none = .errorCaught "KeyError: learning_paths" ∧
    mainRun cfg0 F4 courseUrl0 true none ≠ .noData ∧
    mainExitCode (mainRun cfg0 F4 courseUrl0 true none) = 0 ∧
    mainExitCode (.success tree0) = 0 := by decide

/-- Claim C4 amended: the pipeline always completes (every exception from
the scrape is caught, so the outcome is one of success, no-data, or a caught
error) and always exits with process status 0 — the no-data and error
completions are distinguishable states but do not carry a non-zero exit
status; a course-rank fetch failure surfaces as the caught `KeyError`, and a
course page without learning paths surfaces as the no-data state. -/
theorem C4_no_crash_zero_exit :
    (∀ cfg F url resume disk, mainExitCode (mainRun cfg F url resume disk) = 0) ∧
    (∀ cfg F url resume disk, (∃ c, mainRun cfg F url resume disk = .success c) ∨
      mainRun cfg F url resume disk = .noData ∨
      (∃ e, mainRun cfg F url resume disk = .errorCaught e)) ∧
    (∀ cfg (F : Fetchers) url resume disk, F.fetchCourse url = none →
      mainRun cfg F url resume disk = .errorCaught "KeyError: learning_paths") ∧
    (∀ cfg (F : Fetchers) url resume pg, F.fetchCourse url = some pg →
      (parse_course_page_data url pg).learning_paths = [] →
      mainRun cfg F url resume none = .noData) := by
  refine ⟨fun _ _ _ _ _ => rfl, ?_, ?_, ?_⟩
  · intro cfg F url resume disk
    unfold mainRun
    cases h : scrape_course cfg F url resume disk with
    | error e => exact Or.inr (Or.inr ⟨e, rfl⟩)
    | ok c =>
      cases c with
      | none => exact Or.inr (Or.inl rfl)
      | some t => exact Or.inl ⟨t, rfl⟩
  · intro cfg F url resume disk h
    cases resume <;> simp [mainRun, scrape_course, load_existing_data, h]
  · intro cfg F url resume pg h hempty
    cases resume <;>
      simp [mainRun, scrape_course, load_existing_data, h, hempty, List.isEmpty_iff]

/-- Witness for C4: the amended completion behaviour at concrete worlds. -/
theorem C4_no_crash_zero_exit_witness :
    mainExitCode (mainRun cfg0 F0 courseUrl0 true none) = 0 ∧
    mainRun cfg0 F4 courseUrl0 false none = .errorCaught "KeyError: learning_paths" ∧
    mainRun cfg0 F5 courseUrl0 false none = .noData :=
  ⟨C4_no_crash_zero_exit.1 cfg0 F0 courseUrl0 true none,
   C4_no_crash_zero_exit.2.2.1 cfg0 F4 courseUrl0 false none (by decide),
   C4_no_crash_zero_exit.2.2.2 cfg0 F5 courseUrl0 false (CoursePage.mk "Course T" ["bogus.uid"])
     (by decide) (by decide)⟩

/-! ## Sorting and deduplication helper lemmas -/

theorem orderedInsertNum_perm (x : UnitData) (l : List UnitData) :
    (orderedInsertNum x l).Perm (x :: l) := by
  induction l with
  | nil => exact List.Perm.refl _
  | cons h t ih =>
    unfold orderedInsertNum
    split
    · exact List.Perm.refl _
    · exact ((ih.cons h).trans (List.Perm.swap x h t))

theorem sortByNumber_perm (l : List UnitData) : (sortByNumber l).Perm l := by
  induction l with
  | nil => exact List.Perm.refl _
  | cons h t ih => exact (orderedInsertNum_perm h (sortByNumber t)).trans (ih.cons h)

theorem mem_orderedInsertNum {y x : UnitData} {l : List UnitData} :
    y ∈ orderedInsertNum x l ↔ y = x ∨ y ∈ l := by
  rw [(orderedInsertNum_perm x l).mem_iff]; simp

theorem orderedInsertNum_pairwise {x : UnitData} {l : List UnitData}
    (h : l.Pairwise fun a b => a.number ≤ b.number) :
    (orderedInsertNum x l).Pairwise fun a b => a.number ≤ b.number := by
  induction l with
  | nil => simp [orderedInsertNum]
  | cons hd tl ih =>
    rw [List.pairwise_cons] at h
    unfold orderedInsertNum
    split
    · rename_i hle
      refine List.Pairwise.cons ?_ (List.Pairwise.cons h.1 h.2)
      intro y hy
      rcases List.mem_cons.mp hy with rfl | hy
      · exact hle
      · exact Nat.le_trans hle (h.1 y hy)
    · rename_i hgt
      refine List.Pairwise.cons ?_ (ih h.2)
      intro y hy
      rcases mem_orderedInsertNum.mp hy with rfl | hy
      · exact Nat.le_of_lt (Nat.lt_of_not_le hgt)
      · exact h.1 y hy

theorem sortByNumber_pairwise (l : List UnitData) :
    (sortByNumber l).Pairwise fun a b => a.number ≤ b.number := by
  induction l with
  | nil => simp [sortByNumber]
  | cons h t ih => exact orderedInsertNum_pairwise ih

theorem orderedInsertNum_filter (x : UnitData) (l : List UnitData) (k : Nat) :
    (orderedInsertNum x l).filter (fun u => u.number == k) =
      if x.number = k then x :: l.filter (fun u => u.number == k)
      else l.filter (fun u => u.number == k) := by
  induction l with
  | nil => by_cases hk : x.number = k <;> simp [orderedInsertNum, List.filter_cons, hk]
  | cons hd tl ih =>
    unfold orderedInsertNum
    split
    · rename_i hle
      by_cases hx : x.number = k <;> simp [List.filter_cons, hx]
    · rename_i hgt
      by_cases hx : x.number = k
      · have hh : ¬ hd.number = k := by
          intro hh
          exact hgt (by rw [hx, hh])
        simp [List.filter_cons, ih, hx, hh]
      · by_cases hh : hd.number = k <;> simp [List.filter_cons, ih, hx, hh]

theorem sortByNumber_filter (l : List UnitData) (k : Nat) :
    (sortByNumber l).filter (fun u => u.number == k) = l.filter (fun u => u.number == k) := by
  induction l with
  | nil => rfl
  | cons h t ih =>
    unfold sortByNumber
    rw [orderedInsertNum_filter]
    by_cases hh : h.number = k <;> simp [List.filter_cons, hh, ih]

theorem mem_dedup_units {u : UnitData} {seen : List String} {l : List UnitData} :
    u ∈ dedup_units seen l → u ∈ l := by
  induction l generalizing seen with
  | nil => simp [dedup_units]
  | cons x t ih =>
    unfold dedup_units
    split
    · intro h; exact List.mem_cons_of_mem x (ih h)
    · intro h
      rcases List.mem_cons.mp h with rfl | h
      · exact List.mem_cons_self ..
      · exact List.mem_cons_of_mem x (ih h)

theorem dedup_units_filter (l : List UnitData) (seen : List String) (url : String) :
    (dedup_units seen l).filter (fun x => x.url == url) =
      if url ∈ seen then [] else (l.find? fun x => x.url == url).toList := by
  induction l generalizing seen with
  | nil => split <;> simp [dedup_units, List.find?]
  | cons x t ih =>
    unfold dedup_units
    split
    · rename_i hmem
      rw [ih seen]
      by_cases hu : url ∈ seen
      · simp [hu]
      · have hxu : ¬ x.url = url := by
          intro h; rw [h] at hmem; exact hu hmem
        simp [hu, List.find?_cons, hxu]
    · rename_i hmem
      by_cases hxu : x.url = url
      · have hu : ¬ url ∈ seen := by rw [← hxu]; exact hmem
        simp [List.filter_cons, hxu, ih, List.find?_cons, hu]
      · have hux : ¬ url = x.url := fun h => hxu h.symm
        by_cases hu : url ∈ seen <;>
          simp [List.filter_cons, hxu, hux, ih, List.find?_cons, hu]

/-! ## Claim C7 -/

/-- Claim C7: on a learning-path page, two module anchors with (non-empty)
differing visible text resolving to the same absolute module URL yield
exactly one module entry, titled after the first anchor. -/
theorem C7_module_dedup_first_title :
    ∀ (join : String → String → String) (path_url : String) (pg : PathPage) (a1 a2 : Anchor),
      pg.anchors = [a1, a2] →
      containsStr a1.href "modules" = true →
      containsStr a2.href "modules" = true →
      a1.text ≠ "" →
      a1.text ≠ a2.text →
      resolve_module_url join path_url a1.href = resolve_module_url join path_url a2.href →
      (parse_learning_path_data join path_url pg).modules =
        [bareModule a1.text (resolve_module_url join path_url a1.href)] := by
  intro join pu pg a1 a2 ha h1 h2 ht _ hres
  unfold parse_learning_path_data
  rw [ha]
  simp only [List.filter_cons, h1, h2, List.filter_nil, if_pos]
  unfold parse_lp_fold
  rw [if_pos ⟨ht, List.not_mem_nil _⟩]
  unfold parse_lp_fold
  rw [if_neg]
  · unfold parse_lp_fold
    simp
  · rw [← hres]
    simp

/-- Witness for C7 at a concrete page. -/
theorem C7_module_dedup_first_title_witness :
    (parse_learning_path_data idJoin pathUrl0
      ⟨"P", [⟨"/training/modules/m1/", "First Title"⟩, ⟨"/training/modules/m1", "Second Title"⟩]⟩).modules =
    [bareModule "First Title" (base_url ++ "/training/modules/m1/")] :=
  C7_module_dedup_first_title idJoin pathUrl0
    ⟨"P", [⟨"/training/modules/m1/", "First Title"⟩, ⟨"/training/modules/m1", "Second Title"⟩]⟩
    ⟨"/training/modules/m1/", "First Title"⟩ ⟨"/training/modules/m1", "Second Title"⟩
    rfl (by decide) (by decide) (by decide) (by decide) (by decide)

/-! ## Claim C10 -/

/-- Claim C10: an anchor with empty visible text produces no module entry
and does not reserve its resolved URL — the fold ignores it entirely — so
when it precedes a non-empty anchor resolving to the same URL, the later
anchor's title is recorded. -/
theorem C10_empty_text_anchor :
    (∀ (join : String → String → String) (path_url : String) (seen : List String)
       (acc : List ModuleData) (a : Anchor) (rest : List Anchor), a.text = "" →
       parse_lp_fold join path_url seen acc (a :: rest) =
         parse_lp_fold join path_url seen acc rest) ∧
    (∀ (join : String → String → String) (path_url : String) (pg : PathPage) (a1 a2 : Anchor),
       pg.anchors = [a1, a2] →
       containsStr a1.href "modules" = true →
       containsStr a2.href "modules" = true →
       a1.text = "" →
       a2.text ≠ "" →
       resolve_module_url join path_url a1.href = resolve_module_url join path_url a2.href →
       (parse_learning_path_data join path_url pg).modules =
         [bareModule a2.text (resolve_module_url join path_url a2.href)]) := by
  constructor
  · intro join pu seen acc a rest h
    conv_lhs => unfold parse_lp_fold
    rw [if_neg]
    intro hc
    exact hc.1 h
  · intro join pu pg a1 a2 ha h1 h2 ht1 ht2 _
    unfold parse_learning_path_data
    rw [ha]
    simp only [List.filter_cons, h1, h2, List.filter_nil, if_pos]
    conv_lhs => unfold parse_lp_fold
    rw [if_neg (fun hc => hc.1 ht1)]
    unfold parse_lp_fold
    rw [if_pos ⟨ht2, List.not_mem_nil _⟩]
    unfold parse_lp_fold
    simp

/-- Witness for C10 at a concrete page: the empty-text anchor comes first,
the recorded title is the second anchor's. -/
theorem C10_empty_text_anchor_witness :
    (parse_learning_path_data idJoin pathUrl0
      ⟨"P", [⟨"/training/modules/m1/", ""⟩, ⟨"/training/modules/m1", "Real Title"⟩]⟩).modules =
    [bareModule "Real Title" (base_url ++ "/training/modules/m1/")] :=
  C10_empty_text_anchor.2 idJoin pathUrl0
    ⟨"P", [⟨"/training/modules/m1/", ""⟩, ⟨"/training/modules/m1", "Real Title"⟩]⟩
    ⟨"/training/modules/m1/", ""⟩ ⟨"/training/modules/m1", "Real Title"⟩
    rfl (by decide) (by decide) (by decide) (by decide) (by decide)

/-! ## Claim C8 -/

/-- Claim C8 counterexample: the numeric branch of the recognition test uses
`href.startswith(f'{i}-')` on the raw href, not the last path segment: the
anchor `units/1-intro` (whose last segment matches `^1-`) is recognised by
the claim's rule but dropped by the code. -/
theorem C8_recognition_counterexample :
    spec_unit_link_recognized "units/1-intro" = true ∧
    unit_recognized "units/1-intro" "Intro" = false ∧
    module_unit_candidates idJoin modUrl0 [⟨"units/1-intro", "Intro"⟩] = [] := by decide

/-- Claim C8 amended: an anchor is recognised exactly when the raw href
starts with `{1..19}-`, or the href and the visible text are non-empty and
the href contains a keyword (so an empty-text anchor is only recognised via
the numeric branch); recognised links are deduplicated by resolved URL with
the first occurrence winning, and the later sorting pass only permutes the
deduplicated list. -/
theorem C8_recognition_amended :
    (∀ href : String, unit_recognized href "" =
      ((List.range' 1 19).any fun i => startsWithStr href (String.mk (natToChars i) ++ "-"))) ∧
    (∀ href title : String, unit_recognized href title = true →
      ((List.range' 1 19).any fun i => startsWithStr href (String.mk (natToChars i) ++ "-")) = true ∨
      (href ≠ "" ∧ title ≠ "" ∧
        (["introduction", "summary", "assessment", "exercise"].any fun k => containsStr href k) = true)) ∧
    (∀ (l : List UnitData) (url : String),
      ((dedup_units [] l).filter fun x => x.url == url) = (l.find? fun x => x.url == url).toList) ∧
    (∀ (join : String → String → String) (module_url : String) (pg : ModulePage),
      ((parse_module_page_data join module_url pg).units.getD []).Perm
        (dedup_units [] (module_unit_candidates join module_url pg.anchors))) := by
  refine ⟨?_, ?_, ?_, ?_⟩
  · intro href
    simp [unit_recognized]
  · intro href title h
    unfold unit_recognized at h
    rw [Bool.or_eq_true] at h
    rcases h with h | h
    · rw [Bool.and_eq_true, Bool.and_eq_true] at h
      exact Or.inr ⟨of_decide_eq_true h.1.1, of_decide_eq_true h.1.2, h.2⟩
    · exact Or.inl h
  · intro l url
    rw [dedup_units_filter]
    simp
  · intro join module_url pg
    exact sortByNumber_perm _

/-- Witness for C8: the amended recognition and deduplication facts at
concrete inputs. -/
theorem C8_recognition_amended_witness :
    (((dedup_units [] [unit0, { unit0 with title := "Other" }]).filter
        fun x => x.url == unitUrl0) = [unit0]) ∧
    (((List.range' 1 19).any fun i =>
        startsWithStr "3-overview" (String.mk (natToChars i) ++ "-")) = true ∨
      ("3-overview" ≠ "" ∧ "t" ≠ "" ∧
        (["introduction", "summary", "assessment", "exercise"].any
          fun k => containsStr "3-overview" k) = true)) := by
  constructor
  · rw [C8_recognition_amended.2.2.1 [unit0, { unit0 with title := "Other" }] unitUrl0]
    decide
  · exact C8_recognition_amended.2.1 "3-overview" "t" (by decide)

theorem mem_module_unit_candidates_number {u : UnitData}
    {join : String → String → String} {module_url : String} {anchors : List Anchor}
    (h : u ∈ module_unit_candidates join module_url anchors) :
    u.number = extract_unit_number u.url u.title := by
  unfold module_unit_candidates at h
  rw [List.mem_filterMap] at h
  obtain ⟨a, _, ha⟩ := h
  split at ha
  · injection ha with ha'
    subst ha'
    rfl
  · cases ha

/-! ## Claim C5 -/

/-- Claim C5: the units of a parsed module page are sorted ascending by
OrderKey; the sort is stable (the units with any fixed key keep exactly
their deduplicated discovery order); every emitted unit's key is
`extract_unit_number` of its URL and title; and the three example hrefs sort
to `[1-introduction, 2-provision, 3-summary]` in all six discovery orders. -/
theorem C5_units_sorted_stable :
    (∀ (join : String → String → String) (module_url : String) (pg : ModulePage),
      (((parse_module_page_data join module_url pg).units.getD []).Pairwise
        fun a b => a.number ≤ b.number) ∧
      (∀ k, ((parse_module_page_data join module_url pg).units.getD []).filter
          (fun u => u.number == k) =
        (dedup_units [] (module_unit_candidates join module_url pg.anchors)).filter
          (fun u => u.number == k)) ∧
      (∀ u ∈ (parse_module_page_data join module_url pg).units.getD [],
        u.number = extract_unit_number u.url u.title)) ∧
    (∀ l ∈ exOrders,
      ((parse_module_page_data idJoin modUrl5 ⟨"Sample", l⟩).units.getD []).map
        (fun u => u.href) = ["1-introduction/", "2-provision/", "3-summary/"]) := by
  constructor
  · intro join module_url pg
    refine ⟨sortByNumber_pairwise _, fun k => sortByNumber_filter _ k, ?_⟩
    intro u hu
    have hu' : u ∈ dedup_units [] (module_unit_candidates join module_url pg.anchors) :=
      (sortByNumber_perm _).mem_iff.mp hu
    exact mem_module_unit_candidates_number (mem_dedup_units hu')
  · intro l hl
    simp only [exOrders, List.mem_cons, List.not_mem_nil, or_false] at hl
    rcases hl with rfl | rfl | rfl | rfl | rfl | rfl <;> decide

/-- Witness for C5: the ordering facts at a concrete discovery order. -/
theorem C5_units_sorted_stable_witness :
    ((parse_module_page_data idJoin modUrl5 ⟨"Sample", [exSummary, exIntro, exProvision]⟩).units.getD
      []).map (fun u => u.href) = ["1-introduction/", "2-provision/", "3-summary/"] ∧
    (((parse_module_page_data idJoin modUrl5 ⟨"Sample", [exSummary, exIntro, exProvision]⟩).units.getD
      []).filter (fun u => u.number == 2)) =
      (dedup_units [] (module_unit_candidates idJoin modUrl5 [exSummary, exIntro, exProvision])).filter
        (fun u => u.number == 2) :=
  ⟨C5_units_sorted_stable.2 [exSummary, exIntro, exProvision] (by decide),
   (C5_units_sorted_stable.1 idJoin modUrl5 ⟨"Sample", [exSummary, exIntro, exProvision]⟩).2.1 2⟩

/-! ## Claim C1 -/

/-- Claim C1: the resume lookup returns a content block exactly when a path,
module and unit with the given exact titles exist in the prior tree and that
unit's content is non-empty; the returned block is such a unit's content;
when the lookup succeeds the crawler copies the block into the fresh unit
and the result does not depend on the fetchers at all (no fetch happens);
when it fails, the unit is processed exactly as in a fresh run
(re-attempted). -/
theorem C1_resume_lookup_and_copy :
    (∀ (ed : CourseData) (pT mT uT : String),
      (get_existing_unit_content ed pT mT uT).isSome ↔
        ∃ p ∈ ed.learning_paths, p.title = pT ∧
          ∃ m ∈ p.modules.getD [], m.title = mT ∧
            ∃ u ∈ m.units.getD [], u.title = uT ∧ u.content ≠ "") ∧
    (∀ (ed : CourseData) (pT mT uT : String) (cb : ContentBlock),
      get_existing_unit_content ed pT mT uT = some cb →
        ∃ p ∈ ed.learning_paths, p.title = pT ∧
          ∃ m ∈ p.modules.getD [], m.title = mT ∧
            ∃ u ∈ m.units.getD [], u.title = uT ∧ u.content ≠ "" ∧ cb = unitContentBlock u) ∧
    (∀ (cfg : Config) (F F' : Fetchers) (tree : CourseData) (pT mT : String)
       (u : UnitData) (cb : ContentBlock),
      get_existing_unit_content tree pT mT u.title = some cb →
        process_unit cfg F true tree pT mT u = updateWithContent u cb ∧
        process_unit cfg F true tree pT mT u = process_unit cfg F' true tree pT mT u) ∧
    (∀ (cfg : Config) (F : Fetchers) (tree : CourseData) (pT mT : String) (u : UnitData),
      get_existing_unit_content tree pT mT u.title = none →
        process_unit cfg F true tree pT mT u = process_unit cfg F false tree pT mT u) := by
  refine ⟨?_, ?_, ?_, ?_⟩
  · intro ed pT mT uT
    unfold get_existing_unit_content
    rw [findSome?_isSome_iff]
    refine exists_congr fun p => and_congr_right fun _ => ?_
    rw [isSome_ite_none]
    refine and_congr_right fun _ => ?_
    rw [findSome?_isSome_iff]
    refine exists_congr fun m => and_congr_right fun _ => ?_
    rw [isSome_ite_none]
    refine and_congr_right fun _ => ?_
    rw [findSome?_isSome_iff]
    refine exists_congr fun u => and_congr_right fun _ => ?_
    rw [isSome_ite_none]
    simp
  · intro ed pT mT uT cb h
    unfold get_existing_unit_content at h
    obtain ⟨p, hp, hp2⟩ := List.exists_of_findSome?_eq_some h
    obtain ⟨hpt, hp3⟩ := eq_some_of_ite hp2
    obtain ⟨m, hm, hm2⟩ := List.exists_of_findSome?_eq_some hp3
    obtain ⟨hmt, hm3⟩ := eq_some_of_ite hm2
    obtain ⟨u, hu, hu2⟩ := List.exists_of_findSome?_eq_some hm3
    obtain ⟨⟨hut, huc⟩, hu3⟩ := eq_some_of_ite hu2
    exact ⟨p, hp, hpt, m, hm, hmt, u, hu, hut, huc, (Option.some_inj.mp hu3).symm⟩
  · intro cfg F F' tree pT mT u cb h
    constructor <;> simp [process_unit, h]
  · intro cfg F tree pT mT u h
    simp [process_unit, h]

/-- Witness for C1: the lookup facts at the concrete `tree0`. -/
theorem C1_resume_lookup_and_copy_witness :
    (get_existing_unit_content tree0 "Path One" "Mod One" "Intro").isSome ∧
    process_unit cfg0 F0 true tree0 "Path One" "Mod One" unitFresh0 =
      updateWithContent unitFresh0 (unitContentBlock unit0) ∧
    process_unit cfg0 F0 true tree0 "Path One" "Mod One" unitFresh0 =
      process_unit cfg0 F4 true tree0 "Path One" "Mod One" unitFresh0 ∧
    process_unit cfg0 F0 true tree0 "Path One" "Mod One" { unitFresh0 with title := "Missing" } =
      process_unit cfg0 F0 false tree0 "Path One" "Mod One" { unitFresh0 with title := "Missing" } :=
  ⟨(C1_resume_lookup_and_copy.1 tree0 "Path One" "Mod One" "Intro").mpr (by decide),
   (C1_resume_lookup_and_copy.2.2.1 cfg0 F0 F4 tree0 "Path One" "Mod One" unitFresh0
      (unitContentBlock unit0) (by decide)).1,
   (C1_resume_lookup_and_copy.2.2.1 cfg0 F0 F4 tree0 "Path One" "Mod One" unitFresh0
      (unitContentBlock unit0) (by decide)).2,
   C1_resume_lookup_and_copy.2.2.2 cfg0 F0 tree0 "Path One" "Mod One"
     { unitFresh0 with title := "Missing" } (by decide)⟩

/-! ## Claim C2 -/

/-- Claim C2 counterexample: two runs of the pipeline against the unchanged
`F0` world — the second resuming from the first's persisted tree — emit the
same records except for `scraped_at`, which `generate_training_jsonl` stamps
with the serialization-time clock; since the two runs serialize at different
times the streams are not byte-for-byte identical (a record's `scraped_at`
value appears verbatim in its `json.dumps` line). -/
theorem C2_not_byte_identical :
    scrape_course cfg0 F0 courseUrl0 true none = Except.ok (some tree0) ∧
    scrape_course cfg0 F0 courseUrl0 true (some tree0) = Except.ok (some tree0) ∧
    (generate_training_jsonl tree0 fun _ => "2025-01-01T10:00:00").length = 1 ∧
    generate_training_jsonl tree0 (fun _ => "2025-01-01T10:00:00") ≠
      generate_training_jsonl tree0 (fun _ => "2025-01-02T10:00:00") := by decide

/-! ### C2 machinery, part 1: the fresh run is a pure per-entry map

With `hasExisting = false` every lookup is skipped, so the `crawl_*` loops
compute `process_*1` pointwise. -/

theorem process_unit_false (cfg : Config) (F : Fetchers) (tree : CourseData)
    (pT mT : String) (u : UnitData) :
    process_unit cfg F false tree pT mT u = process_unit1 cfg F u := rfl

theorem process_unit_lookup_none {cfg : Config} {F : Fetchers} {tree : CourseData}
    {pT mT : String} {u : UnitData}
    (h : get_existing_unit_content tree pT mT u.title = none) :
    process_unit cfg F true tree pT mT u = process_unit1 cfg F u := by
  unfold process_unit process_unit1
  rw [if_pos rfl, h]

theorem process_unit1_title (cfg : Config) (F : Fetchers) (u : UnitData) :
    (process_unit1 cfg F u).title = u.title := by
  unfold process_unit1
  split
  · split <;> rfl
  · rfl

theorem crawl_units_false (cfg : Config) (F : Fetchers) (base : CourseData)
    (pd : List PathEntry) (cp : PathEntry) (md : List ModuleData) (cm : ModuleData)
    (mr : List ModuleData) (pr : List PathEntry) :
    ∀ (todo : List UnitData) (done beyond : List UnitData),
    crawl_units cfg F false base pd cp md cm mr pr done todo beyond =
      done ++ todo.map (process_unit1 cfg F) ++ beyond := by
  intro todo
  induction todo with
  | nil => intro done beyond; simp [crawl_units]
  | cons u t ih =>
    intro done beyond
    unfold crawl_units
    dsimp only
    rw [process_unit_false, ih]
    simp

theorem crawl_modules_false (cfg : Config) (F : Fetchers) (base : CourseData)
    (pd : List PathEntry) (cp : PathEntry) (pr : List PathEntry) :
    ∀ (todo : List ModuleData) (done beyond : List ModuleData),
    crawl_modules cfg F false base pd cp pr done todo beyond =
      match process_modules1 cfg F todo with
      | .error e => .error e
      | .ok l => .ok (done ++ l ++ beyond) := by
  intro todo
  induction todo with
  | nil => intro done beyond; simp [crawl_modules, process_modules1]
  | cons m t ih =>
    intro done beyond
    unfold crawl_modules process_modules1 process_module1
    cases hfm : F.fetchModule m.url with
    | none =>
      cases hun : m.units with
      | none => rfl
      | some us =>
        dsimp only
        rw [crawl_units_false, ih]
        cases hrec : process_modules1 cfg F t <;> simp
    | some pg =>
      dsimp only
      rw [crawl_units_false, ih]
      cases hrec : process_modules1 cfg F t <;> simp

theorem crawl_paths_false (cfg : Config) (F : Fetchers) (base : CourseData) :
    ∀ (todo : List PathEntry) (done beyond : List PathEntry),
    crawl_paths cfg F false base done todo beyond =
      match process_paths1 cfg F todo with
      | .error e => .error e
      | .ok l => .ok (done ++ l ++ beyond) := by
  intro todo
  induction todo with
  | nil => intro done beyond; simp [crawl_paths, process_paths1]
  | cons p t ih =>
    intro done beyond
    unfold crawl_paths process_paths1 process_path1
    cases hfp : F.fetchPath p.url with
    | none =>
      rw [ih]
      cases hrec : process_paths1 cfg F t <;> simp
    | some pg =>
      dsimp only
      rw [crawl_modules_false]
      cases hms : process_modules1 cfg F
          (splitLimit cfg.max_modules_per_path (parse_learning_path_data F.join p.url pg).modules).1 with
      | error e => rfl
      | ok ms =>
        dsimp only
        rw [ih]
        cases hrec : process_paths1 cfg F t <;> simp

/-! ### C2 machinery, part 2: shape facts about parsed data -/

theorem parse_lp_fold_bare (join : String → String → String) (pu : String) :
    ∀ (anchors : List Anchor) (seen : List String) (acc : List ModuleData),
    (∀ m ∈ acc, m.units = none) →
    ∀ m ∈ parse_lp_fold join pu seen acc anchors, m.units = none := by
  intro anchors
  induction anchors with
  | nil => intro seen acc hacc; exact hacc
  | cons a rest ih =>
    intro seen acc hacc
    unfold parse_lp_fold
    dsimp only
    split
    · refine ih _ _ ?_
      intro m hm
      rcases List.mem_append.mp hm with hm | hm
      · exact hacc m hm
      · rcases List.mem_singleton.mp hm with rfl; rfl
    · exact ih _ _ hacc

theorem parse_lp_modules_bare (join : String → String → String) (pu : String) (pg : PathPage) :
    ∀ m ∈ (parse_learning_path_data join pu pg).modules, m.units = none := by
  unfold parse_learning_path_data
  exact parse_lp_fold_bare join pu _ [] [] (by intro m hm; cases hm)

theorem parse_course_paths_modules_none (course_url : String) (pg : CoursePage) :
    ∀ p ∈ (parse_course_page_data course_url pg).learning_paths, p.modules = none := by
  unfold parse_course_page_data
  intro p hp
  rw [List.mem_filterMap] at hp
  obtain ⟨uid, _, huid⟩ := hp
  split at huid
  · injection huid with h
    subst h
    rfl
  · cases huid

theorem mem_module_unit_candidates_content {u : UnitData}
    {join : String → String → String} {module_url : String} {anchors : List Anchor}
    (h : u ∈ module_unit_candidates join module_url anchors) : u.content = "" := by
  unfold module_unit_candidates at h
  rw [List.mem_filterMap] at h
  obtain ⟨a, _, ha⟩ := h
  split at ha
  · injection ha with ha'
    subst ha'
    rfl
  · cases ha

theorem parse_module_units_content (join : String → String → String)
    (module_url : String) (pg : ModulePage) :
    ∀ u ∈ (parse_module_page_data join module_url pg).units.getD [], u.content = "" := by
  intro u hu
  have hu' : u ∈ dedup_units [] (module_unit_candidates join module_url pg.anchors) :=
    (sortByNumber_perm _).mem_iff.mp hu
  exact mem_module_unit_candidates_content (mem_dedup_units hu')

theorem process_paths1_length (cfg : Config) (F : Fetchers) :
    ∀ (l r : List PathEntry), process_paths1 cfg F l = .ok r → r.length = l.length := by
  intro l
  induction l with
  | nil =>
    intro r h
    unfold process_paths1 at h
    injection h with h
    rw [← h]
  | cons p t ih =>
    intro r h
    unfold process_paths1 at h
    cases hp : process_path1 cfg F p with
    | error e => rw [hp] at h; cases h
    | ok p' =>
      rw [hp] at h
      cases ht : process_paths1 cfg F t with
      | error e => rw [ht] at h; cases h
      | ok t' =>
        rw [ht] at h
        injection h with h
        rw [← h]
        simp [ih t' ht]

theorem process_paths1_mem (cfg : Config) (F : Fetchers) :
    ∀ (l r : List PathEntry), process_paths1 cfg F l = .ok r →
    ∀ p ∈ r, ∃ q ∈ l, process_path1 cfg F q = .ok p := by
  intro l
  induction l with
  | nil =>
    intro r h p hp
    unfold process_paths1 at h
    injection h with h
    rw [← h] at hp
    cases hp
  | cons q t ih =>
    intro r h p hp
    unfold process_paths1 at h
    cases hq : process_path1 cfg F q with
    | error e => rw [hq] at h; cases h
    | ok q' =>
      rw [hq] at h
      cases ht : process_paths1 cfg F t with
      | error e => rw [ht] at h; cases h
      | ok t' =>
        rw [ht] at h
        injection h with h
        rw [← h] at hp
        rcases List.mem_cons.mp hp with rfl | hp
        · exact ⟨q, List.mem_cons_self .., hq⟩
        · obtain ⟨q2, hq2, hq2'⟩ := ih t' ht p hp
          exact ⟨q2, List.mem_cons_of_mem q hq2, hq2'⟩

theorem splitLimit_append (lim : Option Nat) (l : List α) (t' : List α)
    (hlen : t'.length = (splitLimit lim l).1.length) :
    splitLimit lim (t' ++ (splitLimit lim l).2) = (t', (splitLimit lim l).2) := by
  cases lim with
  | none => simp [splitLimit]
  | some k =>
    cases k with
    | zero => simp [splitLimit]
    | succ j =>
      simp only [splitLimit] at hlen ⊢
      by_cases hle : l.length ≤ j + 1
      · rw [List.drop_eq_nil_of_le hle]
        rw [List.take_of_length_le hle] at hlen
        simp [List.take_of_length_le (le_trans (le_of_eq hlen) hle),
          List.drop_eq_nil_of_le (le_trans (le_of_eq hlen) hle)]
      · have hl : t'.length = j + 1 := by
          rw [hlen, List.length_take]
          omega
        rw [List.take_left' hl, List.drop_left' hl]


/-! ### C2 machinery, part 3: in a resumed run with title-distinct data,
every lookup fails

While the unit at the head of `unitsRest` is processed, the aliased tree
contains content only in already-processed paths (whose titles differ from
the current path's), in already-processed modules of the current path (whose
titles differ from the current module's), and in already-processed units of
the current module (whose titles differ from the current unit's); everything
else is bare or has empty content.  So `get_existing_unit_content` finds
nothing and the unit is fetched as in a fresh run. -/

theorem lookup_mkTreeU_none
    {base : CourseData} {pathsDone : List PathEntry} {curPath : PathEntry}
    {modsDone : List ModuleData} {curMod : ModuleData}
    {unitsDone unitsRest : List UnitData}
    {modsRest : List ModuleData} {pathsRest : List PathEntry} {uT : String}
    (hpd : ∀ p ∈ pathsDone ++ pathsRest, p.title ≠ curPath.title ∨ p.modules = none)
    (hmd : ∀ m ∈ modsDone, m.title ≠ curMod.title)
    (hmr : ∀ m ∈ modsRest, m.units = none)
    (hud : ∀ u ∈ unitsDone, u.title ≠ uT)
    (hur : ∀ u ∈ unitsRest, u.content = "") :
    get_existing_unit_content
      (mkTreeU base pathsDone curPath modsDone curMod unitsDone unitsRest modsRest pathsRest)
      curPath.title curMod.title uT = none := by
  unfold mkTreeU get_existing_unit_content
  dsimp only
  rw [List.findSome?_eq_none_iff]
  intro p hp
  simp only [List.mem_append, List.mem_singleton] at hp
  rcases hp with (hp | rfl) | hp
  · rcases hpd p (List.mem_append_left _ hp) with hne | hmod
    · rw [if_neg hne]
    · rw [hmod]
      split <;> rfl
  · rw [if_pos rfl]
    dsimp only
    rw [Option.getD_some, List.findSome?_eq_none_iff]
    intro m hm
    simp only [List.mem_append, List.mem_singleton] at hm
    rcases hm with (hm | rfl) | hm
    · rw [if_neg (hmd m hm)]
    · rw [if_pos rfl]
      dsimp only
      rw [Option.getD_some, List.findSome?_eq_none_iff]
      intro u hu
      rcases List.mem_append.mp hu with hu | hu
      · rw [if_neg]
        intro hc
        exact hud u hu hc.1
      · rw [if_neg]
        intro hc
        exact hc.2 (hur u hu)
    · rw [hmr m hm]
      split <;> rfl
  · rcases hpd p (List.mem_append_right _ hp) with hne | hmod
    · rw [if_neg hne]
    · rw [hmod]
      split <;> rfl

theorem crawl_units_true (cfg : Config) (F : Fetchers) (base : CourseData)
    (pd : List PathEntry) (cp : PathEntry) (md : List ModuleData) (cm : ModuleData)
    (mr : List ModuleData) (pr : List PathEntry)
    (hpd : ∀ p ∈ pd ++ pr, p.title ≠ cp.title ∨ p.modules = none)
    (hmd : ∀ m ∈ md, m.title ≠ cm.title)
    (hmr : ∀ m ∈ mr, m.units = none) :
    ∀ (todo done beyond : List UnitData),
    (done.map UnitData.title ++ todo.map UnitData.title).Nodup →
    (∀ u ∈ todo, u.content = "") →
    (∀ u ∈ beyond, u.content = "") →
    crawl_units cfg F true base pd cp md cm mr pr done todo beyond =
      done ++ todo.map (process_unit1 cfg F) ++ beyond := by
  intro todo
  induction todo with
  | nil => intro done beyond _ _ _; simp [crawl_units]
  | cons u t ih =>
    intro done beyond hnd hc hb
    rw [List.map_cons] at hnd
    have hud : ∀ x ∈ done, x.title ≠ u.title := by
      intro x hx hxe
      exact List.disjoint_of_nodup_append hnd (List.mem_map_of_mem _ hx)
        (by rw [hxe]; exact List.mem_cons_self ..)
    have hur : ∀ x ∈ u :: (t ++ beyond), x.content = "" := by
      intro x hx
      rcases List.mem_cons.mp hx with rfl | hx
      · exact hc x (List.mem_cons_self ..)
      · rcases List.mem_append.mp hx with hx | hx
        · exact hc x (List.mem_cons_of_mem u hx)
        · exact hb x hx
    have hnd' : ((done ++ [process_unit1 cfg F u]).map UnitData.title ++
        t.map UnitData.title).Nodup := by
      have heq : (done ++ [process_unit1 cfg F u]).map UnitData.title ++ t.map UnitData.title
          = done.map UnitData.title ++ u.title :: t.map UnitData.title := by
        simp [process_unit1_title]
      rw [heq]
      exact hnd
    unfold crawl_units
    dsimp only
    rw [process_unit_lookup_none (lookup_mkTreeU_none hpd hmd hmr hud hur)]
    rw [ih (done ++ [process_unit1 cfg F u]) beyond hnd'
      (fun x hx => hc x (List.mem_cons_of_mem u hx)) hb]
    simp

theorem crawl_modules_true (cfg : Config) (F : Fetchers) (base : CourseData)
    (pd : List PathEntry) (cp : PathEntry) (pr : List PathEntry) :
    ∀ (todo done beyond res : List ModuleData),
    (∀ p ∈ pd ++ pr, p.title ≠ cp.title ∨ p.modules = none) →
    process_modules1 cfg F todo = .ok res →
    (∀ m ∈ todo, m.units = none) →
    (∀ m ∈ beyond, m.units = none) →
    (done.map ModuleData.title ++ res.map ModuleData.title).Nodup →
    (∀ m ∈ res, ((m.units.getD []).map UnitData.title).Nodup) →
    crawl_modules cfg F true base pd cp pr done todo beyond = .ok (done ++ res ++ beyond) := by
  intro todo
  induction todo with
  | nil =>
    intro done beyond res _ hres _ _ _ _
    unfold process_modules1 at hres
    injection hres with hres
    rw [← hres]
    simp [crawl_modules]
  | cons m t ih =>
    intro done beyond res hpd hres hbt hbb hnd hresu
    unfold process_modules1 at hres
    cases hm1 : process_module1 cfg F m with
    | error e => rw [hm1] at hres; cases hres
    | ok m' =>
      rw [hm1] at hres
      cases ht : process_modules1 cfg F t with
      | error e => rw [ht] at hres; cases hres
      | ok res' =>
        rw [ht] at hres
        injection hres with hres
        subst hres
        rw [List.map_cons] at hnd
        unfold process_module1 at hm1
        cases hfm : F.fetchModule m.url with
        | none =>
          rw [hfm, hbt m (List.mem_cons_self ..)] at hm1
          cases hm1
        | some pg =>
          rw [hfm] at hm1
          dsimp only at hm1
          injection hm1 with hm1
          have htitle : (parse_module_page_data F.join m.url pg).title = m'.title := by
            rw [← hm1]
          have hmd : ∀ x ∈ done, x.title ≠ (parse_module_page_data F.join m.url pg).title := by
            intro x hx hxe
            refine List.disjoint_of_nodup_append hnd (List.mem_map_of_mem _ hx) ?_
            rw [hxe, htitle]
            exact List.mem_cons_self ..
          have hmr : ∀ x ∈ t ++ beyond, x.units = none := by
            intro x hx
            rcases List.mem_append.mp hx with hx | hx
            · exact hbt x (List.mem_cons_of_mem m hx)
            · exact hbb x hx
          have hunits : m'.units = some
              ((splitLimit cfg.max_units_per_module
                  ((parse_module_page_data F.join m.url pg).units.getD [])).1.map
                    (process_unit1 cfg F) ++
               (splitLimit cfg.max_units_per_module
                  ((parse_module_page_data F.join m.url pg).units.getD [])).2) := by
            rw [← hm1]
          have hnd2 : ((List.map UnitData.title ([] : List UnitData)) ++
              (splitLimit cfg.max_units_per_module
                ((parse_module_page_data F.join m.url pg).units.getD [])).1.map
                  UnitData.title).Nodup := by
            have hm'u := hresu m' (List.mem_cons_self ..)
            rw [hunits] at hm'u
            rw [Option.getD_some, List.map_append, List.map_map] at hm'u
            have heq : (List.map (UnitData.title ∘ process_unit1 cfg F)
                (splitLimit cfg.max_units_per_module
                  ((parse_module_page_data F.join m.url pg).units.getD [])).1) =
                (List.map UnitData.title
                (splitLimit cfg.max_units_per_module
                  ((parse_module_page_data F.join m.url pg).units.getD [])).1) :=
              List.map_congr_left fun x _ => process_unit1_title cfg F x
            rw [heq] at hm'u
            simpa using hm'u.of_append_left
          have hcu := parse_module_units_content F.join m.url pg
          have hc2 : ∀ x ∈ (splitLimit cfg.max_units_per_module
              ((parse_module_page_data F.join m.url pg).units.getD [])).1, x.content = "" := by
            intro x hx
            cases hlim : cfg.max_units_per_module with
            | none => exact hcu x (by rw [hlim] at hx; exact hx)
            | some k =>
              cases k with
              | zero => exact hcu x (by rw [hlim] at hx; exact hx)
              | succ j => exact hcu x (List.take_subset _ _ (by rw [hlim] at hx; exact hx))
          have hb2 : ∀ x ∈ (splitLimit cfg.max_units_per_module
              ((parse_module_page_data F.join m.url pg).units.getD [])).2, x.content = "" := by
            intro x hx
            cases hlim : cfg.max_units_per_module with
            | none => rw [hlim] at hx; cases hx
            | some k =>
              cases k with
              | zero => rw [hlim] at hx; cases hx
              | succ j => exact hcu x (List.drop_subset _ _ (by rw [hlim] at hx; exact hx))
          have hnd3 : ((done ++ [m']).map ModuleData.title ++
              res'.map ModuleData.title).Nodup := by
            have heq : (done ++ [m']).map ModuleData.title ++ res'.map ModuleData.title
                = done.map ModuleData.title ++ m'.title :: res'.map ModuleData.title := by
              simp
            rw [heq]
            exact hnd
          unfold crawl_modules
          rw [hfm]
          dsimp only
          rw [crawl_units_true cfg F base pd cp done (parse_module_page_data F.join m.url pg)
            (t ++ beyond) pr hpd hmd hmr _ [] _ hnd2 hc2 hb2]
          rw [List.nil_append, hm1]
          rw [ih (done ++ [m']) beyond res' hpd ht
            (fun x hx => hbt x (List.mem_cons_of_mem m hx)) hbb hnd3
            (fun x hx => hresu x (List.mem_cons_of_mem m' hx))]
          simp

theorem splitLimit_fst_subset (lim : Option Nat) (l : List α) : (splitLimit lim l).1 ⊆ l := by
  cases lim with
  | none => simp [splitLimit]
  | some k =>
    cases k with
    | zero => simp [splitLimit]
    | succ j => exact List.take_subset _ _

theorem splitLimit_snd_subset (lim : Option Nat) (l : List α) : (splitLimit lim l).2 ⊆ l := by
  cases lim with
  | none => simp [splitLimit]
  | some k =>
    cases k with
    | zero => simp [splitLimit]
    | succ j => exact List.drop_subset _ _

theorem crawl_paths_true (cfg : Config) (F : Fetchers) (base : CourseData) :
    ∀ (todo done beyond : List PathEntry),
    (∀ p ∈ todo, process_path1 cfg F p = .ok p) →
    (done.map PathEntry.title ++ todo.map PathEntry.title).Nodup →
    (∀ p ∈ beyond, p.modules = none) →
    (∀ p ∈ todo, ((p.modules.getD []).map ModuleData.title).Nodup) →
    (∀ p ∈ todo, ∀ m ∈ p.modules.getD [], ((m.units.getD []).map UnitData.title).Nodup) →
    crawl_paths cfg F true base done todo beyond = .ok (done ++ todo ++ beyond) := by
  intro todo
  induction todo with
  | nil => intro done beyond _ _ _ _ _; simp [crawl_paths]
  | cons p t ih =>
    intro done beyond hfix hnd hbb hpm hpu
    rw [List.map_cons] at hnd
    have hndt : ((done ++ [p]).map PathEntry.title ++ t.map PathEntry.title).Nodup := by
      have heq : (done ++ [p]).map PathEntry.title ++ t.map PathEntry.title
          = done.map PathEntry.title ++ p.title :: t.map PathEntry.title := by
        simp
      rw [heq]
      exact hnd
    unfold crawl_paths
    cases hfp : F.fetchPath p.url with
    | none =>
      rw [ih (done ++ [p]) beyond (fun x hx => hfix x (List.mem_cons_of_mem p hx)) hndt hbb
        (fun x hx => hpm x (List.mem_cons_of_mem p hx))
        (fun x hx => hpu x (List.mem_cons_of_mem p hx))]
      simp
    | some pg =>
      have hfixp := hfix p (List.mem_cons_self ..)
      unfold process_path1 at hfixp
      rw [hfp] at hfixp
      dsimp only at hfixp
      cases hms : process_modules1 cfg F
          (splitLimit cfg.max_modules_per_path
            (parse_learning_path_data F.join p.url pg).modules).1 with
      | error e => rw [hms] at hfixp; cases hfixp
      | ok ms =>
        rw [hms] at hfixp
        injection hfixp with hfixp
        have htitle : (parse_learning_path_data F.join p.url pg).title = p.title :=
          congrArg PathEntry.title hfixp
        have hpmods : p.modules = some (ms ++
            (splitLimit cfg.max_modules_per_path
              (parse_learning_path_data F.join p.url pg).modules).2) :=
          (congrArg PathEntry.modules hfixp).symm
        have hpd : ∀ x ∈ done ++ (t ++ beyond),
            x.title ≠ (parse_learning_path_data F.join p.url pg).title ∨
            x.modules = none := by
          intro x hx
          rw [htitle]
          rcases List.mem_append.mp hx with hx | hx
          · refine Or.inl ?_
            intro hxe
            refine List.disjoint_of_nodup_append hnd (List.mem_map_of_mem _ hx) ?_
            rw [hxe]
            exact List.mem_cons_self ..
          · rcases List.mem_append.mp hx with hx | hx
            · refine Or.inl ?_
              have hnd2 := hnd.of_append_right
              rw [List.nodup_cons] at hnd2
              intro hxe
              refine hnd2.1 ?_
              rw [← hxe]
              exact List.mem_map_of_mem _ hx
            · exact Or.inr (hbb x hx)
        have hmsnd : ((List.map ModuleData.title ([] : List ModuleData)) ++
            ms.map ModuleData.title).Nodup := by
          have hthis := hpm p (List.mem_cons_self ..)
          rw [hpmods] at hthis
          rw [Option.getD_some, List.map_append] at hthis
          simpa using hthis.of_append_left
        have hbare1 : ∀ x ∈ (splitLimit cfg.max_modules_per_path
            (parse_learning_path_data F.join p.url pg).modules).1, x.units = none :=
          fun x hx => parse_lp_modules_bare F.join p.url pg x (splitLimit_fst_subset _ _ hx)
        have hbare2 : ∀ x ∈ (splitLimit cfg.max_modules_per_path
            (parse_learning_path_data F.join p.url pg).modules).2, x.units = none :=
          fun x hx => parse_lp_modules_bare F.join p.url pg x (splitLimit_snd_subset _ _ hx)
        have hresu : ∀ x ∈ ms, ((x.units.getD []).map UnitData.title).Nodup := by
          intro x hx
          refine hpu p (List.mem_cons_self ..) x ?_
          rw [hpmods]
          exact List.mem_append_left _ hx
        dsimp only
        rw [crawl_modules_true cfg F base done
          { p with url := (parse_learning_path_data F.join p.url pg).url
                   title := (parse_learning_path_data F.join p.url pg).title
                   modules := some (parse_learning_path_data F.join p.url pg).modules }
          (t ++ beyond) _ [] _ ms hpd hms hbare1 hbare2 hmsnd hresu]
        simp only [List.nil_append]
        rw [hfixp]
        rw [ih (done ++ [p]) beyond (fun x hx => hfix x (List.mem_cons_of_mem p hx)) hndt hbb
          (fun x hx => hpm x (List.mem_cons_of_mem p hx))
          (fun x hx => hpu x (List.mem_cons_of_mem p hx))]
        simp

theorem process_path1_fixpoint (cfg : Config) (F : Fetchers) :
    ∀ (q p : PathEntry), process_path1 cfg F q = .ok p → process_path1 cfg F p = .ok p := by
  intro q p h
  unfold process_path1 at h
  cases hfq : F.fetchPath q.url with
  | none =>
    rw [hfq] at h
    injection h with h
    subst h
    unfold process_path1
    rw [hfq]
  | some pg =>
    rw [hfq] at h
    dsimp only at h
    cases hms : process_modules1 cfg F
        (splitLimit cfg.max_modules_per_path
          (parse_learning_path_data F.join q.url pg).modules).1 with
    | error e => rw [hms] at h; cases h
    | ok ms =>
      rw [hms] at h
      injection h with h
      have hurl : q.url = p.url := by
        have hx := congrArg PathEntry.url h
        simpa [parse_learning_path_data] using hx
      have huid : q.learn_uid = p.learn_uid := by
        have hx := congrArg PathEntry.learn_uid h
        simpa using hx
      unfold process_path1
      rw [← hurl, hfq]
      dsimp only
      rw [hms, ← huid]
      dsimp only
      rw [h]

/-- Claim C2 amended: with the first run's persisted tree available for
resume and an unchanged source, and provided the first run's tree has
pairwise-distinct path titles, pairwise-distinct module titles within each
path and pairwise-distinct unit titles within each module, the second run
reproduces the first run's tree exactly (every resume lookup fails against
the aliased, in-place-updated tree, so content is re-derived, not reused)
and its flattened record stream equals the first run's except for each
record's `scraped_at` timestamp. -/
theorem C2_idempotent_up_to_timestamp
    (cfg : Config) (F : Fetchers) (course_url : String) (t1 : CourseData)
    (h1 : scrape_course cfg F course_url true none = .ok (some t1))
    (hp : (t1.learning_paths.map PathEntry.title).Nodup)
    (hm : ∀ p ∈ t1.learning_paths, ((p.modules.getD []).map ModuleData.title).Nodup)
    (hu : ∀ p ∈ t1.learning_paths, ∀ m ∈ p.modules.getD [],
      ((m.units.getD []).map UnitData.title).Nodup)
    (now1 now2 : Nat → String) :
    scrape_course cfg F course_url true (some t1) = .ok (some t1) ∧
    (generate_training_jsonl t1 now1).map stripTs =
      (generate_training_jsonl t1 now2).map stripTs := by
  constructor
  · cases hfc : F.fetchCourse course_url with
    | none =>
      exfalso
      unfold scrape_course load_existing_data at h1
      rw [hfc] at h1
      simp at h1
    | some pg =>
      unfold scrape_course load_existing_data at h1
      rw [hfc] at h1
      dsimp only at h1
      by_cases hemp : (parse_course_page_data course_url pg).learning_paths.isEmpty
      · rw [if_pos hemp] at h1
        cases h1
      · rw [if_neg hemp] at h1
        rw [crawl_paths_false] at h1
        cases hpp : process_paths1 cfg F
            (splitLimit cfg.max_paths (parse_course_page_data course_url pg).learning_paths).1 with
        | error e => rw [hpp] at h1; cases h1
        | ok l =>
          rw [hpp] at h1
          dsimp only at h1
          rw [List.nil_append] at h1
          injection h1 with h1
          injection h1 with h1
          have hlp : t1.learning_paths = l ++
              (splitLimit cfg.max_paths (parse_course_page_data course_url pg).learning_paths).2 :=
            (congrArg CourseData.learning_paths h1).symm
          have hlen : l.length =
              (splitLimit cfg.max_paths (parse_course_page_data course_url pg).learning_paths).1.length :=
            process_paths1_length cfg F _ l hpp
          have hsplit := splitLimit_append cfg.max_paths
            (parse_course_page_data course_url pg).learning_paths l hlen
          unfold scrape_course load_existing_data
          rw [hfc]
          dsimp only
          rw [if_pos rfl]
          dsimp only
          rw [hlp, hsplit]
          dsimp only
          rw [crawl_paths_true cfg F t1 l [] _ ?hfix ?hnd ?hbb ?hpm ?hpu]
          · rw [List.nil_append, ← hlp]
          case hfix =>
            intro p hpmem
            obtain ⟨q, _, hq⟩ := process_paths1_mem cfg F _ l hpp p hpmem
            exact process_path1_fixpoint cfg F q p hq
          case hnd =>
            rw [hlp, List.map_append] at hp
            simpa using hp.of_append_left
          case hbb =>
            intro p hpmem
            exact parse_course_paths_modules_none course_url pg p
              (splitLimit_snd_subset _ _ hpmem)
          case hpm =>
            intro p hpmem
            exact hm p (by rw [hlp]; exact List.mem_append_left _ hpmem)
          case hpu =>
            intro p hpmem
            exact hu p (by rw [hlp]; exact List.mem_append_left _ hpmem)
  · unfold generate_training_jsonl
    rw [List.map_map, List.map_map]
    refine List.map_congr_left ?_
    intro ir _
    obtain ⟨i, r⟩ := ir
    rfl

/-- Witness for the amended C2 at the concrete `F0` world. -/
theorem C2_idempotent_up_to_timestamp_witness :
    scrape_course cfg0 F0 courseUrl0 true (some tree0) = .ok (some tree0) ∧
    (generate_training_jsonl tree0 fun _ => "2025-01-01T10:00:00").map stripTs =
      (generate_training_jsonl tree0 fun _ => "2025-01-02T10:00:00").map stripTs :=
  C2_idempotent_up_to_timestamp cfg0 F0 courseUrl0 tree0 (by decide) (by decide)
    (by decide) (by decide) (fun _ => "2025-01-01T10:00:00") (fun _ => "2025-01-02T10:00:00")

end Scraper
